import Mathlib

/-! Verification of libpod: the pod lifecycle adapter and the remote streaming bridge.

A shallow embedding of the bulk pod operations and the seccomp paths of
`pkg/adapter/pods.go`, of the status labels and the output of
`cmd/podman/pod_ps.go`, of the streaming reply loops, the event stream and the
file transfers of `pkg/adapter/runtime_remote.go`, of the selectors of
`cmd/podmanV2/volumes`, of the compat container handlers of
`pkg/api/handlers/compat/containers.go` and of the volume filters of
`pkg/domain/filters/volumes.go`, with the properties the specification states
about them.

Conventions of the embedding:

* a Go `error` is `Option GoError` (`none` is `nil`);
* a Go `map[string]error` that the code tests against `nil` is
  `Option ErrMap`: `none` is the nil map, `some []` a non-nil empty map;
  ranging over a map visits the entries in the order of the list (Go leaves
  the order unspecified, the list is one such order);
* a Go slice is a `List`; `append` adds at the end;
* calls into the libpod runtime are functions on an explicit runtime state
  `σ`, passed along in program order.
-/

set_option autoImplicit false

namespace Libpod

/-! ## Errors -/

/-- A Go error value: a sentinel (compared by identity, here by name) or an
error wrapped with a message, as built by `errors.Wrapf`. -/
inductive GoError where
  | sentinel (name : String)
  | wrapped (msg : String) (inner : GoError)
  deriving DecidableEq, Repr

/-- The function `errors.Cause` of `github.com/pkg/errors`: the innermost
error of a chain of wrapped errors. -/
def errorsCause : GoError → GoError
  | .sentinel n => .sentinel n
  | .wrapped _ e => errorsCause e

/-- The sentinel `define.ErrNoSuchPod`. -/
def ErrNoSuchPod : GoError := .sentinel "no such pod"

/-- A non-nil `map[string]error`, as the list of its entries. -/
abbrev ErrMap := List (String × GoError)

/-- The map assignment `m[k] = e`: replaces the entry of `k` when there is one,
adds a new entry otherwise. -/
def ErrMap.set : ErrMap → String → GoError → ErrMap
  | [], k, e => [(k, e)]
  | (k0, e0) :: m, k, e => if k0 = k then (k, e) :: m else (k0, e0) :: ErrMap.set m k e

/-! ## Container states and the labels of `pod ps` -/

/-- Modelled from the spec: the enumeration `define.ContainerStatus`
(`libpod/define`), which is not among the sources. It is a Go `int` with one
named constant per lifecycle state; `Other` stands for every value that is
none of the constants. -/
inductive ContainerStatus where
  | ContainerStateUnknown
  | ContainerStateConfigured
  | ContainerStateCreated
  | ContainerStateRunning
  | ContainerStateStopped
  | ContainerStatePaused
  | ContainerStateExited
  | ContainerStateRemoving
  | ContainerStateStopping
  | Other (raw : Int)
  deriving DecidableEq, Repr

open ContainerStatus

/-- Label constant `STOPPED` of `pod_ps.go`. -/
def STOPPED : String := "Stopped"
/-- Label constant `RUNNING` of `pod_ps.go`. -/
def RUNNING : String := "Running"
/-- Label constant `PAUSED` of `pod_ps.go`. -/
def PAUSED : String := "Paused"
/-- Label constant `EXITED` of `pod_ps.go`. -/
def EXITED : String := "Exited"
/-- Label constant `ERROR` of `pod_ps.go`. -/
def ERROR : String := "Error"
/-- Label constant `CREATED` of `pod_ps.go`. -/
def CREATED : String := "Created"

/-- The `switch batchInfo.ConState` of `getAndSortPodJSONParams`
(`pod_ps.go`, lines 402-416): the status label of one member container. -/
def ctrStatusLabel (conState : ContainerStatus) : String :=
  match conState with
  | ContainerStateExited => EXITED
  | ContainerStateStopped => EXITED
  | ContainerStateRunning => RUNNING
  | ContainerStatePaused => PAUSED
  | ContainerStateCreated => CREATED
  | ContainerStateConfigured => CREATED
  | _ => ERROR

/-! ## Bulk pod operations (`pkg/adapter/pods.go`) -/

/-- A resolved pod (`*libpod.Pod`), identified by what `p.ID()` returns. -/
structure Pod where
  id : String
  deriving DecidableEq, Repr

/-- What a pod operation of libpod (`StopWithTimeout`, `Kill`, `Start`,
`Pause`, `Unpause`, `Restart`) returns: the per-container error map and the
pod-level error. -/
abbrev PodResult := Option ErrMap × Option GoError

/-- The calls into the libpod runtime that the bulk operations make. The
runtime is not among the sources, so each call is a function of the runtime
state `σ`: it returns its Go results and the state it leaves. -/
structure PodRuntime (σ : Type) where
  /-- Function `shortcuts.GetPodsByContext(all, latest, args, runtime)`. -/
  GetPodsByContext : Bool → Bool → List String → σ → (List Pod × Option GoError) × σ
  /-- Method `r.GetPodsByStatus(states)`. -/
  GetPodsByStatus : List String → σ → (List Pod × Option GoError) × σ
  /-- Method `r.Runtime.RemovePod(ctx, p, removeCtrs, force)`. -/
  RemovePod : Pod → Bool → Bool → σ → Option GoError × σ
  /-- Method `p.StopWithTimeout(ctx, cleanup, timeout)`. -/
  StopWithTimeout : Pod → Bool → Int → σ → PodResult × σ
  /-- Method `p.Kill(signal)`. -/
  Kill : Pod → Nat → σ → PodResult × σ
  /-- Method `p.Start(ctx)`. -/
  Start : Pod → σ → PodResult × σ
  /-- Method `p.Pause()`. -/
  Pause : Pod → σ → PodResult × σ
  /-- Method `p.Unpause()`. -/
  Unpause : Pod → σ → PodResult × σ
  /-- Method `p.Restart(ctx)`. -/
  Restart : Pod → σ → PodResult × σ

/-- The selector fields shared by the `cliconfig.Pod*Values` structs. -/
structure PodSelector where
  All : Bool
  Latest : Bool
  InputArgs : List String
  deriving DecidableEq, Repr

/-- The fields of `cliconfig.PodRmValues` that `RemovePods` reads. -/
structure PodRmValues extends PodSelector where
  Ignore : Bool
  Force : Bool
  deriving DecidableEq, Repr

/-- The fields of `cliconfig.PodStopValues` that `StopPods` reads;
`timeoutChanged` is `cli.Flags().Changed("timeout")`, `Timeout` is a `uint`. -/
structure PodStopValues extends PodSelector where
  Ignore : Bool
  timeoutChanged : Bool
  Timeout : Nat
  deriving DecidableEq, Repr

/-- The body of `for _, p := range pods` in `RemovePods` (lines 107-113),
with the accumulators `podids` and `errs`. -/
def removePodsLoop {σ : Type} (rt : PodRuntime σ) (force : Bool) :
    List Pod → σ → List String → List GoError → (List String × List GoError) × σ
  | [], s, podids, errs => ((podids, errs), s)
  | p :: pods, s, podids, errs =>
    match rt.RemovePod p true force s with
    | (some err, s1) => removePodsLoop rt force pods s1 podids (errs ++ [err])
    | (none, s1) => removePodsLoop rt force pods s1 (podids ++ [p.id]) errs

/-- The method `LocalRuntime.RemovePods` (lines 96-115). -/
def RemovePods {σ : Type} (rt : PodRuntime σ) (cli : PodRmValues) (s : σ) :
    (List String × List GoError) × σ :=
  match rt.GetPodsByContext cli.All cli.Latest cli.InputArgs s with
  | ((pods, some err), s1) =>
    if !(cli.Ignore && decide (errorsCause err = ErrNoSuchPod)) then
      (([], [] ++ [err]), s1)
    else
      removePodsLoop rt cli.Force pods s1 [] []
  | ((pods, none), s1) => removePodsLoop rt cli.Force pods s1 [] []

/-- The loop body shared, statement for statement, by `StopPods` (lines
176-192), `KillPods` (207-223) and `StartPods` (238-254): `op` is the pod
operation called, `stopped` the flag the three functions name `stopped`,
`killed` and `started`. -/
def mergeLoop {σ : Type} (op : Pod → σ → PodResult × σ) :
    List Pod → σ → List String → List GoError → (List String × List GoError) × σ
  | [], s, podids, errs => ((podids, errs), s)
  | p :: pods, s, podids, errs =>
    match op p s with
    | ((conErrs, stopErr), s1) =>
      let stopped := true
      let (errs, stopped) :=
        match stopErr with
        | some e => (errs ++ [e], false)
        | none => (errs, stopped)
      let (errs, stopped) :=
        match conErrs with
        | some m => (errs ++ m.map Prod.snd, false)
        | none => (errs, stopped)
      let podids := if stopped then podids ++ [p.id] else podids
      mergeLoop op pods s1 podids errs

/-- The timeout `StopPods` passes on (lines 162-165): `-1` unless the flag
was changed. -/
def stopTimeout (cli : PodStopValues) : Int :=
  if cli.timeoutChanged then (cli.Timeout : Int) else -1

/-- The method `LocalRuntime.StopPods` (lines 161-194). -/
def StopPods {σ : Type} (rt : PodRuntime σ) (cli : PodStopValues) (s : σ) :
    (List String × List GoError) × σ :=
  let timeout := stopTimeout cli
  match rt.GetPodsByContext cli.All cli.Latest cli.InputArgs s with
  | ((pods, some err), s1) =>
    if !(cli.Ignore && decide (errorsCause err = ErrNoSuchPod)) then
      (([], [] ++ [err]), s1)
    else
      mergeLoop (fun p => rt.StopWithTimeout p true timeout) pods s1 [] []
  | ((pods, none), s1) =>
    mergeLoop (fun p => rt.StopWithTimeout p true timeout) pods s1 [] []

/-- The method `LocalRuntime.KillPods` (lines 197-225). -/
def KillPods {σ : Type} (rt : PodRuntime σ) (cli : PodSelector) (signal : Nat) (s : σ) :
    (List String × List GoError) × σ :=
  match rt.GetPodsByContext cli.All cli.Latest cli.InputArgs s with
  | ((_, some err), s1) => (([], [] ++ [err]), s1)
  | ((pods, none), s1) => mergeLoop (fun p => rt.Kill p signal) pods s1 [] []

/-- The method `LocalRuntime.StartPods` (lines 228-256). -/
def StartPods {σ : Type} (rt : PodRuntime σ) (cli : PodSelector) (s : σ) :
    (List String × List GoError) × σ :=
  match rt.GetPodsByContext cli.All cli.Latest cli.InputArgs s with
  | ((_, some err), s1) => (([], [] ++ [err]), s1)
  | ((pods, none), s1) => mergeLoop (fun p => rt.Start p) pods s1 [] []

/-- What `PausePods`, `UnpausePods` and `RestartPods` return: the IDs, the
container-error map (made with `make`, never nil) and the error list. -/
structure PauseResult where
  ids : List String
  containerErrors : ErrMap
  errs : List GoError
  deriving DecidableEq, Repr

/-- The inner loop `for ctr, err := range ctrErrs` (lines 412-414):
`containerErrors[ctr] = err` for every entry. -/
def mergeCtrErrs (containerErrors : ErrMap) (ctrErrs : ErrMap) : ErrMap :=
  ctrErrs.foldl (fun m kv => ErrMap.set m kv.1 kv.2) containerErrors

/-- The loop body shared, statement for statement, by `PausePods` (lines
405-419), `UnpausePods` (437-451) and `RestartPods` (469-483); `op` is the pod
operation called. Both `continue` statements skip the rest of the body. -/
def continueLoop {σ : Type} (op : Pod → σ → PodResult × σ) :
    List Pod → σ → PauseResult → PauseResult × σ
  | [], s, acc => (acc, s)
  | pod :: pods, s, acc =>
    match op pod s with
    | ((_, some err), s1) =>
      continueLoop op pods s1 { acc with errs := acc.errs ++ [err] }
    | ((some ctrErrs, none), s1) =>
      continueLoop op pods s1
        { acc with containerErrors := mergeCtrErrs acc.containerErrors ctrErrs }
    | ((none, none), s1) =>
      continueLoop op pods s1 { acc with ids := acc.ids ++ [pod.id] }

/-- The method `LocalRuntime.PausePods` (lines 392-421). -/
def PausePods {σ : Type} (rt : PodRuntime σ) (c : PodSelector) (s : σ) : PauseResult × σ :=
  match rt.GetPodsByContext c.All c.Latest c.InputArgs s with
  | ((_, some err), s1) => (⟨[], [], [] ++ [err]⟩, s1)
  | ((pods, none), s1) => continueLoop (fun p => rt.Pause p) pods s1 ⟨[], [], []⟩

/-- The method `LocalRuntime.UnpausePods` (lines 424-453). -/
def UnpausePods {σ : Type} (rt : PodRuntime σ) (c : PodSelector) (s : σ) : PauseResult × σ :=
  match rt.GetPodsByContext c.All c.Latest c.InputArgs s with
  | ((_, some err), s1) => (⟨[], [], [] ++ [err]⟩, s1)
  | ((pods, none), s1) => continueLoop (fun p => rt.Unpause p) pods s1 ⟨[], [], []⟩

/-- The method `LocalRuntime.RestartPods` (lines 456-486). -/
def RestartPods {σ : Type} (rt : PodRuntime σ) (c : PodSelector) (s : σ) : PauseResult × σ :=
  match rt.GetPodsByContext c.All c.Latest c.InputArgs s with
  | ((_, some err), s1) => (⟨[], [], [] ++ [err]⟩, s1)
  | ((pods, none), s1) => continueLoop (fun p => rt.Restart p) pods s1 ⟨[], [], []⟩

/-- The results of calling the pod operation `op` on every pod of the list,
once each and in order, each call on the state the one before left. This is
the reference run that the loops are compared with. -/
def podRuns {σ : Type} (op : Pod → σ → PodResult × σ) : List Pod → σ → List (Pod × PodResult)
  | [], _ => []
  | p :: pods, s => (p, (op p s).1) :: podRuns op pods (op p s).2

/-- The runtime state after calling `op` on every pod of the list, once
each and in order. -/
def podRunsState {σ : Type} (op : Pod → σ → PodResult × σ) : List Pod → σ → σ
  | [], s => s
  | p :: pods, s => podRunsState op pods (op p s).2

/-- The results of `RemovePod` on every pod of the list, once each and in
order. -/
def removeRuns {σ : Type} (rt : PodRuntime σ) (force : Bool) :
    List Pod → σ → List (Pod × Option GoError)
  | [], _ => []
  | p :: pods, s =>
    (p, (rt.RemovePod p true force s).1) :: removeRuns rt force pods (rt.RemovePod p true force s).2

/-- The runtime state after `RemovePod` on every pod of the list, once each
and in order. -/
def removeRunsState {σ : Type} (rt : PodRuntime σ) (force : Bool) : List Pod → σ → σ
  | [], s => s
  | p :: pods, s => removeRunsState rt force pods (rt.RemovePod p true force s).2

/-- The errors of both layers of one pod result: the pod-level error, then
the per-container errors. -/
def PodResult.errors (r : PodResult) : List GoError :=
  r.2.toList ++ (r.1.getD []).map Prod.snd

/-- A layer of the pod result produced an error: the pod-level error is set,
or the per-container map holds an entry. -/
def PodResult.producedError (r : PodResult) : Bool :=
  r.2.isSome || !(r.1.getD []).isEmpty

/-- What the loops of `StopPods`, `KillPods` and `StartPods` test: the
pod-level error is not nil, or the per-container map is not nil. -/
def PodResult.flagged (r : PodResult) : Bool :=
  r.2.isSome || r.1.isSome

/-- The negation of the test of lines 102 and 171,
`err != nil && !(cli.Ignore && errors.Cause(err) == define.ErrNoSuchPod)`:
`RemovePods` and `StopPods` go on to their loop. -/
def proceeds (ignore : Bool) (err : Option GoError) : Bool :=
  match err with
  | none => true
  | some e => ignore && decide (errorsCause e = ErrNoSuchPod)

/-! ## Pruning pods through the job pool -/

/-- Modelled from the spec: the pod state constant `define.PodStateStopped`
(`libpod/define` is not among the sources); the value is the label "Stopped". -/
def PodStateStopped : String := "Stopped"
/-- Modelled from the spec: the pod state constant `define.PodStateExited`. -/
def PodStateExited : String := "Exited"
/-- Modelled from the spec: the pod state constant `define.PodStateRunning`. -/
def PodStateRunning : String := "Running"
/-- Modelled from the spec: the pod state constant `define.PodStateCreated`. -/
def PodStateCreated : String := "Created"

/-- The fields of `cliconfig.PodPruneValues` that `PrunePods` reads:
`maxWorkersSet` is `cli.GlobalIsSet("max-workers")`, `MaxWorks` is
`cli.GlobalFlags.MaxWorks` (an `int`). -/
structure PodPruneValues where
  Force : Bool
  maxWorkersSet : Bool
  MaxWorks : Int
  deriving DecidableEq, Repr

/-- The struct `shared.Job`: an ID and the function to run. -/
structure Job (σ : Type) where
  ID : String
  Fn : σ → Option GoError × σ

/-- The job pool of `cmd/podman/shared`, which is not among the sources: the
pool type `π` and the four functions `PrunePods` calls. -/
structure JobPool (σ π : Type) where
  /-- Function `shared.DefaultPoolSize(name)`. -/
  DefaultPoolSize : String → Int
  /-- Function `shared.NewPool(id, size, capacity)`. -/
  NewPool : String → Int → Int → π
  /-- Method `pool.Add(job)`. -/
  Add : π → Job σ → π
  /-- Method `pool.Run()`. -/
  Run : π → σ → (List String × ErrMap × Option GoError) × σ

/-- Lines 58-61 of `PrunePods`: the worker limit. -/
def pruneMaxWorkers {σ π : Type} (jp : JobPool σ π) (cli : PodPruneValues) : Int :=
  let maxWorkers := jp.DefaultPoolSize "rm"
  if cli.maxWorkersSet then cli.MaxWorks else maxWorkers

/-- Lines 64-67 of `PrunePods`: the pod states that select the candidates. -/
def pruneStates (force : Bool) : List String :=
  let states := [PodStateStopped, PodStateExited]
  if force then states ++ [PodStateRunning] else states

/-- The job `PrunePods` adds for the pod `p` (lines 81-90). -/
def pruneJob {σ : Type} (rt : PodRuntime σ) (cli : PodPruneValues) (p : Pod) : Job σ :=
  { ID := p.id, Fn := fun s => rt.RemovePod p true cli.Force s }

/-- How `PrunePods` ends: with one of its two early `return ok, failures, err`
(lines 71 and 74), or with `return pool.Run()` on the pool it has built. -/
inductive PrunePlan (π : Type) where
  | done (ok : List String) (failures : ErrMap) (err : Option GoError)
  | run (pool : π)

/-- The method `LocalRuntime.PrunePods` up to its last statement (lines
52-91). -/
def prunePlan {σ π : Type} (rt : PodRuntime σ) (jp : JobPool σ π) (cli : PodPruneValues)
    (s : σ) : PrunePlan π × σ :=
  let ok : List String := []
  let failures : ErrMap := []
  let maxWorkers := pruneMaxWorkers jp cli
  let states := pruneStates cli.Force
  match rt.GetPodsByStatus states s with
  | ((_, some err), s1) => (.done ok failures (some err), s1)
  | ((pods, none), s1) =>
    if pods.length < 1 then
      (.done ok failures none, s1)
    else
      let pool := jp.NewPool "pod_prune" maxWorkers pods.length
      (.run (pods.foldl (fun pool p => jp.Add pool (pruneJob rt cli p)) pool), s1)

/-- The method `LocalRuntime.PrunePods` (lines 52-93). -/
def PrunePods {σ π : Type} (rt : PodRuntime σ) (jp : JobPool σ π) (cli : PodPruneValues)
    (s : σ) : (List String × ErrMap × Option GoError) × σ :=
  match prunePlan rt jp cli s with
  | (.done ok failures err, s1) => ((ok, failures, err), s1)
  | (.run pool, s1) => jp.Run pool s1

/-! ## Streaming replies (`pkg/adapter/runtime_remote.go`) -/

/-- One result of calling `reply()` on a streaming call: the fields of the
response that the loops read, the flags word and the error. -/
structure Reply where
  Logs : List String
  Id : String
  flags : Nat
  err : Option GoError
  deriving DecidableEq, Repr

/-- The flag `varlink.Continues`. -/
def Continues : Nat := 1

/-- Where a reply loop stands when it returns: the replies it has not read,
and what `fmt.Print` has written. -/
structure StreamEnd where
  unread : List Reply
  stdout : List String
  deriving DecidableEq, Repr

/-- The `for` loop of `New` (lines 336-348), `LoadFromArchiveReference`
(300-312) and `LoadImage` (894-907): on `break` the value of `iid` (`names`
in `LoadImage`). The list holds the results of the successive calls of
`reply()`; the result is `none` when the loop asks for a reply beyond the
last one. -/
def idReplyLoop : List Reply → String → List String → Option (Except GoError String × StreamEnd)
  | [], _, _ => none
  | r :: replies, _, out =>
    match r.err with
    | some err => some (.error err, ⟨replies, out⟩)
    | none =>
      let out := out ++ r.Logs
      let iid := r.Id
      if r.flags &&& Continues = 0 then some (.ok iid, ⟨replies, out⟩)
      else idReplyLoop replies iid out

/-- The `for` loop of `Push` (lines 711-722) and `Build` (589-600). -/
def logReplyLoop : List Reply → List String → Option (Except GoError Unit × StreamEnd)
  | [], _ => none
  | r :: replies, out =>
    match r.err with
    | some err => some (.error err, ⟨replies, out⟩)
    | none =>
      let out := out ++ r.Logs
      if r.flags &&& Continues = 0 then some (.ok (), ⟨replies, out⟩)
      else logReplyLoop replies out

/-- The `for` loop of `SaveImage` (lines 828-843): on `break` the value of
`fetchfile`, which a reply changes only when its `Id` is not empty. -/
def saveReplyLoop : List Reply → String → List String → Option (Except GoError String × StreamEnd)
  | [], _, _ => none
  | r :: replies, fetchfile, out =>
    match r.err with
    | some err => some (.error err, ⟨replies, out⟩)
    | none =>
      let fetchfile := if r.Id.length > 0 then r.Id else fetchfile
      let out := out ++ r.Logs
      if r.flags &&& Continues = 0 then some (.ok fetchfile, ⟨replies, out⟩)
      else saveReplyLoop replies fetchfile out

/-- The method `LocalRuntime.New` (lines 322-354) from the result `send` of
`PullImage().Send`: `label` is the optional label, `newImageFromLocal` the
method `r.NewImageFromLocal`. -/
def New {α : Type} (label : Option String) (send : Except GoError (List Reply))
    (newImageFromLocal : String → Except GoError α) (out : List String) :
    Option (Except GoError α × StreamEnd) :=
  match label with
  | some _ =>
    some (.error (.sentinel
      "the remote client function does not support checking a remote image for a label"),
      ⟨[], out⟩)
  | none =>
    match send with
    | .error err => some (.error err, ⟨[], out⟩)
    | .ok replies =>
      match idReplyLoop replies "" out with
      | none => none
      | some (.error err, e) => some (.error err, e)
      | some (.ok iid, e) => some (newImageFromLocal iid, e)

/-- The method `LocalRuntime.LoadFromArchiveReference` (lines 292-319) from
the result `send` of `PullImage().Send`. -/
def LoadFromArchiveReference {α : Type} (send : Except GoError (List Reply))
    (newImageFromLocal : String → Except GoError α) (out : List String) :
    Option (Except GoError (List α) × StreamEnd) :=
  match send with
  | .error err => some (.error err, ⟨[], out⟩)
  | .ok replies =>
    match idReplyLoop replies "" out with
    | none => none
    | some (.error err, e) => some (.error err, e)
    | some (.ok iid, e) =>
      match newImageFromLocal iid with
      | .error err => some (.error err, e)
      | .ok newImage => some (.ok [newImage], e)

/-- The method `LocalRuntime.Push` (lines 705-725) from the result `send` of
`PushImage().Send`; the value is the error returned (`none` is `nil`). -/
def Push (send : Except GoError (List Reply)) (out : List String) :
    Option (Option GoError × StreamEnd) :=
  match send with
  | .error err => some (some err, ⟨[], out⟩)
  | .ok replies =>
    match logReplyLoop replies out with
    | none => none
    | some (.error err, e) => some (some err, e)
    | some (.ok (), e) => some (none, e)

/-- The end of the method `LocalRuntime.Build` (lines 584-602), from the
result `send` of `BuildImage().Send`; the value is the error returned. -/
def Build (send : Except GoError (List Reply)) (out : List String) :
    Option (Option GoError × StreamEnd) :=
  match send with
  | .error err => some (some err, ⟨[], out⟩)
  | .ok replies =>
    match logReplyLoop replies out with
    | none => none
    | some (.error err, e) => some (some err, e)
    | some (.ok (), e) => some (none, e)

/-- The method `LocalRuntime.SaveImage` up to the end of its reply loop
(lines 810-846), from the result `send` of `ImageSave().Send`: the value of
`fetchfile` with which the method goes on. -/
def SaveImageFetchfile (send : Except GoError (List Reply)) (out : List String) :
    Option (Except GoError String × StreamEnd) :=
  match send with
  | .error err => some (.error err, ⟨[], out⟩)
  | .ok replies => saveReplyLoop replies "" out

/-- The end of the method `LocalRuntime.LoadImage` (lines 890-909), from the
result `send` of `LoadImage().Send`: the names returned. -/
def LoadImageReplies (send : Except GoError (List Reply)) (out : List String) :
    Option (Except GoError String × StreamEnd) :=
  match send with
  | .error err => some (.error err, ⟨[], out⟩)
  | .ok replies => idReplyLoop replies "" out

/-- A reply that carries the flag `Continues` and no error. -/
def Reply.isChunk (r : Reply) : Bool :=
  r.err.isNone && decide (r.flags &&& Continues ≠ 0)

/-- A reply that ends a loop: it carries an error, or its `Continues` flag is
clear. -/
def Reply.isLast (r : Reply) : Bool :=
  r.err.isSome || decide (r.flags &&& Continues = 0)

/-- The last `Id` that is not empty among the replies, `fetchfile` when there
is none. -/
def lastNonEmptyId (fetchfile : String) (replies : List Reply) : String :=
  replies.foldl (fun f r => if r.Id.length > 0 then r.Id else f) fetchfile

/-- What a loop prints for a reply: its `Logs`, and nothing when the reply
carries an error (the loop returns before it prints). -/
def Reply.printed (r : Reply) : List String :=
  match r.err with
  | some _ => []
  | none => r.Logs

/-- What a loop that stops at the reply `r` yields: the error of `r`, or the
value `v` when there is none. -/
def Reply.yield {α : Type} (r : Reply) (v : α) : Except GoError α :=
  match r.err with
  | some err => .error err
  | none => .ok v

/-! ## Example runtimes -/

/-- A runtime whose state is the log of the calls made on it. Resolution
returns `resolved`, every pod operation on `p` returns `result p`, removing
`p` returns `removed p`. -/
def scriptedRuntime (resolved : List Pod × Option GoError) (result : Pod → PodResult)
    (removed : Pod → Option GoError) : PodRuntime (List String) where
  GetPodsByContext := fun _ _ _ log => (resolved, log ++ ["resolve"])
  GetPodsByStatus := fun _ log => (resolved, log ++ ["by-status"])
  RemovePod := fun p _ _ log => (removed p, log ++ ["rm " ++ p.id])
  StopWithTimeout := fun p _ _ log => (result p, log ++ ["stop " ++ p.id])
  Kill := fun p _ log => (result p, log ++ ["kill " ++ p.id])
  Start := fun p log => (result p, log ++ ["start " ++ p.id])
  Pause := fun p log => (result p, log ++ ["pause " ++ p.id])
  Unpause := fun p log => (result p, log ++ ["unpause " ++ p.id])
  Restart := fun p log => (result p, log ++ ["restart " ++ p.id])

/-- What a recording pool holds: the arguments `NewPool` was given and the
IDs of the jobs added, in order. -/
structure PoolRecord where
  id : String
  size : Int
  capacity : Int
  jobs : List String
  deriving DecidableEq, Repr

/-- A pool that records what it is given; its `Run` runs nothing and reports
every recorded ID as succeeded. The default size of every pool is `dflt`. -/
def recordingPool (σ : Type) (dflt : Int) : JobPool σ PoolRecord where
  DefaultPoolSize := fun _ => dflt
  NewPool := fun id size capacity => ⟨id, size, capacity, []⟩
  Add := fun pool job => { pool with jobs := pool.jobs ++ [job.ID] }
  Run := fun pool s => ((pool.jobs, [], none), s)

/-! ## Events (`pkg/adapter/runtime_remote.go`) -/

/-- The fields of the `iopodman.Event` record that `Events` reads; `Typ` is
the field `Type`. -/
structure WireEvent where
  Id : String
  Image : String
  Name : String
  Status : String
  Time : String
  Typ : String
  deriving DecidableEq, Repr

/-- One result of calling `reply()` on the `GetEvents` call: an error, or a
record and the flags word. -/
abbrev EventReply := Except GoError (WireEvent × Nat)

/-- The struct `events.Event`, over the types of a parsed time, type and
status; `Typ` is the field `Type`. -/
structure Event (T K S : Type) where
  ID : String
  Image : String
  Name : String
  Status : S
  Time : T
  Typ : K

/-- The fields of `cliconfig.EventValues` that `Events` reads. -/
structure EventValues where
  Stream : Bool
  Format : String
  Filter : List String
  Since : String
  Until : String
  deriving DecidableEq, Repr

/-- The constant `formats.JSONString` of buildah. -/
def JSONString : String := "json"

/-- The functions `Events` calls that are not among the sources: the parsers
of the standard library and of `libpod/events`, the formatting of an event,
and the buffered writer `w` on standard output, whose state is `σ`. -/
structure EventsEnv (σ T K S Tm : Type) where
  /-- Function `time.Parse(time.RFC3339Nano, value)`. -/
  timeParse : String → Except GoError T
  /-- Function `events.StringToType`. -/
  StringToType : String → Except GoError K
  /-- Function `events.StringToStatus`. -/
  StringToStatus : String → Except GoError S
  /-- Call `template.New("events").Parse(format)`. -/
  templateParse : String → Except GoError Tm
  /-- Method `event.ToJSONString()`. -/
  ToJSONString : Event T K S → Except GoError String
  /-- Method `event.ToHumanReadable()`. -/
  ToHumanReadable : Event T K S → String
  /-- Method `tmpl.Execute(w, event)`. -/
  Execute : Tm → Event T K S → σ → Option GoError × σ
  /-- Method `w.Write([]byte(text))`. -/
  Write : String → σ → Option GoError × σ
  /-- Method `w.Flush()`. -/
  Flush : σ → Option GoError × σ

/-- Lines 940-947 of `Events`: the template, nil when the format is JSON. -/
def eventsTemplate {σ T K S Tm : Type} (env : EventsEnv σ T K S Tm) (c : EventValues) :
    Except GoError (Option Tm) :=
  if c.Format != JSONString then
    match env.templateParse c.Format with
    | .error err => .error err
    | .ok template => .ok (some template)
  else .ok none

/-- Lines 980-1002 of `Events`: the event is written in the format asked
for, then a newline, then the writer is flushed; the first error ends it. A
nil template is not executed (the format is JSON then, and the first branch is
taken). -/
def writeEvent {σ T K S Tm : Type} (env : EventsEnv σ T K S Tm) (c : EventValues)
    (tmpl : Option Tm) (event : Event T K S) (s : σ) : Option GoError × σ :=
  let formatted : Option GoError × σ :=
    if c.Format == JSONString then
      match env.ToJSONString event with
      | .error err => (some (.wrapped "unable to format json" err), s)
      | .ok jsonStr => env.Write jsonStr s
    else if c.Format.length > 0 then
      match tmpl with
      | some t => env.Execute t event s
      | none => (some (.sentinel "nil template"), s)
    else env.Write (env.ToHumanReadable event) s
  match formatted with
  | (some err, s1) => (some err, s1)
  | (none, s1) =>
    match env.Write "\n" s1 with
    | (some err, s2) => (some err, s2)
    | (none, s2) => env.Flush s2

/-- How one turn of the `for` loop of `Events` ends: the function returns
(`stop`, with the error returned) or the loop goes on to the next reply
(`next`). -/
inductive EventStep (σ : Type) where
  | stop (err : Option GoError) (s : σ)
  | next (s : σ)

/-- The test of line 956: time, status and type are all empty. -/
def WireEvent.isBlank (ev : WireEvent) : Bool :=
  ev.Time == "" && ev.Status == "" && ev.Typ == ""

/-- The body of the `for` loop of `Events` (lines 950-1005) on the result `r`
of `reply()`. Both `break` statements are followed by `return nil`. -/
def eventsStep {σ T K S Tm : Type} (env : EventsEnv σ T K S Tm) (c : EventValues)
    (tmpl : Option Tm) (r : EventReply) (s : σ) : EventStep σ :=
  match r with
  | .error err => .stop (some err) s
  | .ok (returnedEvent, flags) =>
    if returnedEvent.isBlank then .stop none s
    else
      match env.timeParse returnedEvent.Time with
      | .error err =>
        .stop (some (.wrapped ("unable to parse time of event " ++ returnedEvent.Time) err)) s
      | .ok eTime =>
        match env.StringToType returnedEvent.Typ with
        | .error err => .stop (some err) s
        | .ok eType =>
          match env.StringToStatus returnedEvent.Status with
          | .error err => .stop (some err) s
          | .ok eStatus =>
            let event : Event T K S :=
              { ID := returnedEvent.Id, Image := returnedEvent.Image, Name := returnedEvent.Name,
                Status := eStatus, Time := eTime, Typ := eType }
            match writeEvent env c tmpl event s with
            | (some err, s1) => .stop (some err) s1
            | (none, s1) => if flags &&& Continues = 0 then .stop none s1 else .next s1

/-- The `for` loop of `Events` on the results of the successive calls of
`reply()`: the error returned, the replies left unread and the state of the
writer; `none` when the loop asks for a reply beyond the last one. -/
def eventsLoop {σ T K S Tm : Type} (env : EventsEnv σ T K S Tm) (c : EventValues)
    (tmpl : Option Tm) : List EventReply → σ → Option (Option GoError × List EventReply × σ)
  | [], _ => none
  | r :: replies, s =>
    match eventsStep env c tmpl r s with
    | .stop err s1 => some (err, replies, s1)
    | .next s1 => eventsLoop env c tmpl replies s1

/-- The method `LocalRuntime.Events` (lines 929-1008) from the result `send`
of `GetEvents().Send`. -/
def Events {σ T K S Tm : Type} (env : EventsEnv σ T K S Tm) (c : EventValues)
    (send : Except GoError (List EventReply)) (s : σ) :
    Option (Option GoError × List EventReply × σ) :=
  match send with
  | .error err => some (some (.wrapped "unable to obtain events" err), [], s)
  | .ok replies =>
    match eventsTemplate env c with
    | .error err => some (some err, replies, s)
    | .ok tmpl => eventsLoop env c tmpl replies s

/-- The state of the writer after the loop has gone through all the replies
of the list without stopping; `none` when a turn stops. -/
def eventsThrough {σ T K S Tm : Type} (env : EventsEnv σ T K S Tm) (c : EventValues)
    (tmpl : Option Tm) : List EventReply → σ → Option σ
  | [], s => some s
  | r :: replies, s =>
    match eventsStep env c tmpl r s with
    | .stop _ _ => none
    | .next s1 => eventsThrough env c tmpl replies s1

/-- An environment for the examples: the writer state is the list of the
texts written; the time "bad" does not parse, the type "bad" and the status
"bad" are rejected; an event is shown as its ID. -/
def lineEvents : EventsEnv (List String) String String String String where
  timeParse := fun t => if t = "bad" ∨ t = "" then .error (.sentinel "parsing time") else .ok t
  StringToType := fun t => if t = "bad" ∨ t = "" then .error (.sentinel "unknown event type") else .ok t
  StringToStatus := fun t => if t = "bad" ∨ t = "" then .error (.sentinel "unknown event status") else .ok t
  templateParse := fun f => .ok f
  ToJSONString := fun e => .ok e.ID
  ToHumanReadable := fun e => e.ID
  Execute := fun _ e out => (none, out ++ [e.ID])
  Write := fun text out => (none, out ++ [text])
  Flush := fun out => (none, out)

/-! ## File transfer over an upgraded connection -/

/-- A byte of a file or of the raw channel. -/
abbrev Byte := Nat

/-- The byte of the character `:`. -/
def colon : Byte := 58

/-- The sentinel `io.EOF`. -/
def EOF : GoError := .sentinel "EOF"

/-- A call issued in protocol mode on a connection, with the arguments the
transfer functions give it. -/
inductive VarlinkCall where
  | SendFile (kind : String) (length : Int)
  | ReceiveFile (path : String) (delete : Bool)
  | ExportContainer (name : String) (path : String)
  | LoadImage (name : String) (inputFile : List Byte) (quiet : Bool) (deleteFile : Bool)
  deriving DecidableEq, Repr

/-- Modelled from the spec: the connection `r.Conn` of the remote runtime
(the varlink connection is not among the sources), a channel with the two
modes of section 4.4. `upgraded` is set once a call sent with
`varlink.Upgrade` has been answered: the channel is then in raw mode;
`calls` are the calls issued on it in protocol mode, `reader` the raw bytes
the peer sends that are not read yet, `writer` the raw bytes written to it. -/
structure Connection where
  upgraded : Bool
  calls : List VarlinkCall
  reader : List Byte
  writer : List Byte
  deriving DecidableEq, Repr

/-- The remote runtime as the transfer functions see it: its connection, and
the connections it has given up. -/
structure RemoteRuntime where
  Conn : Connection
  closed : List Connection
  deriving DecidableEq, Repr

/-- Modelled from the spec: the method `r.RemoteRuntime.RefreshConnection()`,
which is not among the sources; on success the runtime has a new connection,
in protocol mode. -/
def RefreshConnection (fault : Option GoError) (r : RemoteRuntime) : Option GoError × RemoteRuntime :=
  match fault with
  | some err => (some err, r)
  | none => (none, { Conn := ⟨false, [], [], []⟩, closed := r.closed ++ [r.Conn] })

/-- The errors with which the calls of a transfer outside this file fail
(`none`: the call succeeds): `os.Create`, `os.Open`, `fs.Stat`, the `Send` of
the call, its `reply()`, `reader.WriteTo` and `RefreshConnection`; and the
two ways in which writing the output file of a receive fails. `fileWrite`:
the buffered writer on the output file fails during the copy, with the error
given, once it has taken the number of bytes given; `io.CopyN` returns that
error. `flush`: the deferred `writer.Flush()` fails, and only the number of
bytes given reach the file; the code does not look at its error. -/
structure TransferFaults where
  create : Option GoError
  openFile : Option GoError
  stat : Option GoError
  send : Option GoError
  reply : Option GoError
  writeTo : Option GoError
  refresh : Option GoError
  fileWrite : Option (Nat × GoError)
  flush : Option Nat
  deriving DecidableEq, Repr

/-- No call fails. -/
def noFaults : TransferFaults := ⟨none, none, none, none, none, none, none, none, none⟩

/-- The function `io.CopyN(dst, src, n)` of the standard library on a source
that ends after the bytes `src` and a destination that fails as `dstFault`
says (with the error given once it has taken the number of bytes given,
never when `none`): the bytes the destination has taken, the bytes left in
the source and the error. The limited reader reads nothing when `n ≤ 0`, and
the result is then `(0, nil)`, also for a negative `n`; an error of the
destination is returned; a source that ends before `n` bytes gives
`io.EOF`. -/
def ioCopyN (dstFault : Option (Nat × GoError)) (src : List Byte) (n : Int) :
    List Byte × List Byte × Option GoError :=
  if n ≤ 0 then ([], src, none)
  else
    let failsAt : Option (Nat × GoError) :=
      match dstFault with
      | some (taken, err) => if taken < (src.take n.toNat).length then some (taken, err) else none
      | none => none
    match failsAt with
    | some (taken, err) => (src.take taken, src.drop taken, some err)
    | none =>
      if (src.length : Int) < n then (src, [], some EOF)
      else (src.take n.toNat, src.drop n.toNat, none)

/-- The content of the output file once the deferred `writer.Flush()` has
run on a writer that has taken the bytes `taken`: all of them, or the first
ones only when the flush fails. -/
def afterFlush (flushFault : Option Nat) (taken : List Byte) : List Byte :=
  match flushFault with
  | none => taken
  | some landed => taken.take landed

/-- The method `ReadString(delim)` of `bufio.Reader` on a source that ends
after the bytes given: the bytes up to and including the first `delim`, the
bytes left, and `io.EOF` when there is no `delim`. -/
def readString (delim : Byte) : List Byte → List Byte × List Byte × Option GoError
  | [] => ([], [], some EOF)
  | b :: src =>
    if b = delim then ([b], src, none)
    else
      match readString delim src with
      | (line, rest, err) => (b :: line, rest, err)

/-- The call `strings.Replace(s, old, "", -1)` for a one-byte `old`: every
occurrence is removed. -/
def removeAll (old : Byte) (s : List Byte) : List Byte :=
  s.filter (fun b => b ≠ old)

/-- What `GetFileFromRemoteHost` returns and leaves: the error, the content
of the output file once the deferred `Flush` and `Close` have run (`none`
when the file was not created) and the runtime. -/
structure ReceiveResult where
  err : Option GoError
  output : Option (List Byte)
  runtime : RemoteRuntime
  deriving DecidableEq, Repr

/-- The method `LocalRuntime.GetFileFromRemoteHost` (lines 486-511);
`length` is the length that `reply()` returns when it does not fail, the
output file is the one that `os.Create(outputPath)` creates, empty. The copy
goes through the buffered `writer`; the error of the deferred
`writer.Flush()` is dropped, so it does not show in the error returned. -/
def GetFileFromRemoteHost (faults : TransferFaults) (length : Int)
    (remoteFilePath : String) (delete : Bool) (r : RemoteRuntime) : ReceiveResult :=
  match faults.create with
  | some err => ⟨some err, none, r⟩
  | none =>
    let r1 : RemoteRuntime :=
      { r with Conn := { r.Conn with calls := r.Conn.calls ++ [.ReceiveFile remoteFilePath delete] } }
    match faults.send with
    | some err => ⟨some err, some [], r1⟩
    | none =>
      match faults.reply with
      | some err => ⟨some (.wrapped "unable to get file length for transfer" err), some [], r1⟩
      | none =>
        let r2 : RemoteRuntime := { r1 with Conn := { r1.Conn with upgraded := true } }
        match ioCopyN faults.fileWrite r2.Conn.reader length with
        | (written, rest, some err) =>
          ⟨some (.wrapped "file transfer failed" err), some (afterFlush faults.flush written),
            { r2 with Conn := { r2.Conn with reader := rest } }⟩
        | (written, rest, none) =>
          ⟨none, some (afterFlush faults.flush written),
            { r2 with Conn := { r2.Conn with reader := rest } }⟩

/-- The method `LocalRuntime.Export` (lines 478-484); `call` is the result of
`ExportContainer().Call`. -/
def Export (faults : TransferFaults) (call : Except GoError String) (length : Int)
    (name : String) (r : RemoteRuntime) : ReceiveResult :=
  let r1 : RemoteRuntime :=
    { r with Conn := { r.Conn with calls := r.Conn.calls ++ [.ExportContainer name ""] } }
  match call with
  | .error err => ⟨some err, none, r1⟩
  | .ok tempPath => GetFileFromRemoteHost faults length tempPath true r1

/-- The method `LocalRuntime.SendFileOverVarlink` (lines 605-646) on a source
file with the content `file`: the string and the error returned, and the
runtime. The error of `Flush` is not looked at by the code; the bytes written
reach the channel. -/
def SendFileOverVarlink (faults : TransferFaults) (file : List Byte) (r : RemoteRuntime) :
    (List Byte × Option GoError) × RemoteRuntime :=
  match faults.openFile with
  | some err => (([], some err), r)
  | none =>
    match faults.stat with
    | some err => (([], some err), r)
    | none =>
      let r1 : RemoteRuntime :=
        { r with Conn := { r.Conn with calls := r.Conn.calls ++ [.SendFile "" file.length] } }
      match faults.send with
      | some err => (([], some err), r1)
      | none =>
        match faults.reply with
        | some err => (([], some err), r1)
        | none =>
          let r2 : RemoteRuntime := { r1 with Conn := { r1.Conn with upgraded := true } }
          match faults.writeTo with
          | some err => (([], some err), r2)
          | none =>
            let r3 : RemoteRuntime :=
              { r2 with Conn := { r2.Conn with writer := r2.Conn.writer ++ file } }
            match readString colon r3.Conn.reader with
            | (_, rest, some err) =>
              (([], some err), { r3 with Conn := { r3.Conn with reader := rest } })
            | (tempFile, rest, none) =>
              let r4 : RemoteRuntime := { r3 with Conn := { r3.Conn with reader := rest } }
              match RefreshConnection faults.refresh r4 with
              | (some err, r5) => (([], some err), r5)
              | (none, r5) => ((removeAll colon tempFile, none), r5)

/-- The method `LocalRuntime.LoadImage` (lines 879-909) on an input file with
the content `file`: the names and the error returned, where the reply loop
stands, and the runtime; `send` is the result of `LoadImage().Send`. -/
def LoadImage (faults : TransferFaults) (file : List Byte) (name : String) (quiet : Bool)
    (send : Except GoError (List Reply)) (out : List String) (r : RemoteRuntime) :
    Option ((String × Option GoError) × StreamEnd × RemoteRuntime) :=
  match SendFileOverVarlink faults file r with
  | ((_, some _), r1) => some (("", none), ⟨[], out⟩, r1)
  | ((remoteTempFile, none), r1) =>
    let r2 : RemoteRuntime :=
      { r1 with Conn := { r1.Conn with
          calls := r1.Conn.calls ++ [.LoadImage name remoteTempFile quiet true] } }
    match LoadImageReplies send out with
    | none => none
    | some (.error err, e) => some (("", some err), e, r2)
    | some (.ok names, e) => some ((names, none), e, r2)

/-! ## The commands `volume rm` and `volume inspect` (`cmd/podmanV2/volumes`) -/

/-- The fields of `entities.VolumeRmReport` that `rm` reads. -/
structure VolumeRmReport where
  Err : Option GoError
  Id : String
  deriving DecidableEq, Repr

/-- The struct `entities.VolumeRmOptions`. -/
structure VolumeRmOptions where
  All : Bool
  Force : Bool
  deriving DecidableEq, Repr

/-- The struct `entities.VolumeInspectOptions`. -/
structure VolumeInspectOptions where
  All : Bool
  deriving DecidableEq, Repr

/-- What the two commands call outside their files: the container engine,
the printing of errors and of lines, the JSON encoding and the templates; `σ`
is the state of the engine and of standard output, `ρ` the type of the
inspect reports. -/
structure VolumeCli (σ ρ Tm : Type) where
  /-- Method `registry.ContainerEngine().VolumeRm(ctx, args, opts)`. -/
  VolumeRm : List String → VolumeRmOptions → σ → Except GoError (List VolumeRmReport) × σ
  /-- Method `registry.ContainerEngine().VolumeInspect(ctx, args, opts)`. -/
  VolumeInspect : List String → VolumeInspectOptions → σ → Except GoError ρ × σ
  /-- Method `errs.PrintErrors()`. -/
  PrintErrors : List GoError → σ → Option GoError × σ
  /-- Function `fmt.Println`. -/
  Println : String → σ → σ
  /-- Function `json.MarshalIndent(responses, "", "     ")`. -/
  MarshalIndent : ρ → Except GoError String
  /-- Call `template.New("volumeInspect").Parse(format)`. -/
  templateParse : String → Except GoError Tm
  /-- Method `tmpl.Execute(os.Stdout, responses)`. -/
  Execute : Tm → ρ → σ → Option GoError × σ

/-- The loop over `responses` of `rm` (lines 60-66): the ID of a volume that
was removed is printed, the error of another is kept. -/
def rmReports {σ ρ Tm : Type} (cli : VolumeCli σ ρ Tm) :
    List VolumeRmReport → List GoError → σ → List GoError × σ
  | [], errs, s => (errs, s)
  | r :: responses, errs, s =>
    match r.Err with
    | none => rmReports cli responses errs (cli.Println r.Id s)
    | some err => rmReports cli responses (errs ++ [err]) s

/-- The function `rm` from its call of the engine on (lines 56-67). -/
def rmEngine {σ ρ Tm : Type} (cli : VolumeCli σ ρ Tm) (rmOptions : VolumeRmOptions)
    (args : List String) (s : σ) : Option GoError × σ :=
  match cli.VolumeRm args rmOptions s with
  | (.error err, s1) => (some err, s1)
  | (.ok responses, s1) =>
    match rmReports cli responses [] s1 with
    | (errs, s2) => cli.PrintErrors errs s2

/-- The function `rm` of `volume rm` (lines 49-68). -/
def rm {σ ρ Tm : Type} (cli : VolumeCli σ ρ Tm) (rmOptions : VolumeRmOptions)
    (args : List String) (s : σ) : Option GoError × σ :=
  if (decide (args.length > 0) && rmOptions.All) || (decide (args.length < 1) && !rmOptions.All) then
    (some (.sentinel "choose either one or more volumes or all"), s)
  else rmEngine cli rmOptions args s

/-- The function `inspect` from its call of the engine on (lines 56-74). -/
def inspectEngine {σ ρ Tm : Type} (cli : VolumeCli σ ρ Tm) (inspectOpts : VolumeInspectOptions)
    (inspectFormat : String) (args : List String) (s : σ) : Option GoError × σ :=
  match cli.VolumeInspect args inspectOpts s with
  | (.error err, s1) => (some err, s1)
  | (.ok responses, s1) =>
    if inspectFormat = "" ∨ inspectFormat = JSONString then
      match cli.MarshalIndent responses with
      | .error err => (some (.wrapped "error marshalling inspect JSON" err), s1)
      | .ok jsonOut => (none, cli.Println jsonOut s1)
    else
      match cli.templateParse inspectFormat with
      | .error err => (some err, s1)
      | .ok tmpl =>
        match cli.Execute tmpl responses s1 with
        | (some err, s2) => (some err, s2)
        | (none, s2) => (none, s2)

/-- The function `inspect` of `volume inspect` (lines 52-75). -/
def inspect {σ ρ Tm : Type} (cli : VolumeCli σ ρ Tm) (inspectOpts : VolumeInspectOptions)
    (inspectFormat : String) (args : List String) (s : σ) : Option GoError × σ :=
  if (inspectOpts.All && decide (args.length > 0)) || (!inspectOpts.All && decide (args.length < 1)) then
    (some (.sentinel "provide one or more volume names or use --all"), s)
  else inspectEngine cli inspectOpts inspectFormat args s

/-- A command line for the examples: the state is the log of the calls of
the engine and of the lines printed; every volume is removed. -/
def loggingVolumeCli : VolumeCli (List String) (List String) String where
  VolumeRm := fun args _ log => (.ok (args.map (fun a => ⟨none, a⟩)), log ++ ["engine rm"])
  VolumeInspect := fun args _ log => (.ok args, log ++ ["engine inspect"])
  PrintErrors := fun errs log => (errs.head?, log)
  Println := fun line log => log ++ [line]
  MarshalIndent := fun reports => .ok (String.join reports)
  templateParse := fun f => .ok f
  Execute := fun _ reports log => (none, log ++ reports)

/-! ## The compat container handlers (`pkg/api/handlers/compat/containers.go`) -/

/-- A call of one of the response helpers of `pkg/api/handlers/utils`, with
its arguments (the body of `WriteResponse` as text). -/
inductive Response where
  | Error (msg : String) (code : Nat) (err : GoError)
  | InternalServerError (err : GoError)
  | ContainerNotFound (name : String) (err : GoError)
  | WriteResponse (code : Nat) (body : String)
  | BadRequest (key : String) (value : String) (err : GoError)
  deriving DecidableEq, Repr

/-- For the examples only: the statuses of the responses that a call of a
helper writes, one response per call. The helpers are not among the sources;
`Error` and `WriteResponse` are given their status, the 404 of
`ContainerNotFound` and the 500 of `InternalServerError` are the statuses
that the tests of `pkg/bindings/test/containers_test.go` expect for a
container that is not found (lines 41-53) and for a removal that the runtime
refuses (lines 171-182); `BadRequest`, which no example calls, is given the
400 of its name. The theorems take the statuses as an assumption. -/
def testedStatuses : Response → List Nat
  | .Error _ code _ => [code]
  | .InternalServerError _ => [500]
  | .ContainerNotFound _ _ => [404]
  | .WriteResponse code _ => [code]
  | .BadRequest _ _ _ => [400]

/-- The constant `http.StatusBadRequest`. -/
def StatusBadRequest : Nat := 400
/-- The constant `http.StatusConflict`. -/
def StatusConflict : Nat := 409
/-- The constant `http.StatusInternalServerError`. -/
def StatusInternalServerError : Nat := 500
/-- The constant `http.StatusNoContent`. -/
def StatusNoContent : Nat := 204

/-- The sentinel `utils.ErrLinkNotSupport`. -/
def ErrLinkNotSupport : GoError := .sentinel "Link is not supported"

/-- A request as a handler reads it: `query` is what `decoder.Decode` makes
of the URL query (an error, or the values of the parameters), `isLibpod` is
`utils.IsLibpodRequest(r)`, `name` is `utils.GetName(r)`, `url` is
`r.URL.String()`. -/
structure HttpRequest (Q : Type) where
  query : Except GoError Q
  isLibpod : Bool
  name : String
  url : String

/-- The decoded query of `RemoveContainer`. -/
structure RemoveQuery where
  Force : Bool
  Vols : Bool
  Link : Bool
  deriving DecidableEq, Repr

/-- The calls the handlers make on the libpod runtime and on a container
`κ`, as functions of the runtime state `σ`, and the signal parser of
`pkg/signal`. -/
structure CtrRuntime (σ κ : Type) where
  /-- Method `runtime.LookupContainer(name)`. -/
  LookupContainer : String → σ → Except GoError κ × σ
  /-- Method `runtime.RemoveContainer(ctx, con, force, removeVolume)`. -/
  RemoveContainer : κ → Bool → Bool → σ → Option GoError × σ
  /-- Method `con.State()`. -/
  State : κ → σ → Except GoError ContainerStatus × σ
  /-- Method `con.Kill(signal)`. -/
  Kill : κ → Nat → σ → Option GoError × σ
  /-- Method `con.Wait()`. -/
  Wait : κ → σ → Except GoError Int × σ
  /-- Method `con.ID()`. -/
  ID : κ → String
  /-- Function `signal.ParseSignalNameOrNumber`. -/
  ParseSignalNameOrNumber : String → Except GoError Int

/-- The handler `RemoveContainer` (lines 24-59): the responses written, in
order, and the runtime state. -/
def RemoveContainer {σ κ : Type} (rt : CtrRuntime σ κ) (r : HttpRequest RemoveQuery) (s : σ) :
    List Response × σ :=
  match r.query with
  | .error err =>
    ([.Error "Bad Request" StatusBadRequest
        (.wrapped ("Failed to parse parameters for " ++ r.url) err)], s)
  | .ok query =>
    if query.Link && !r.isLibpod then
      ([.Error "Bad Request" StatusBadRequest ErrLinkNotSupport], s)
    else
      match rt.LookupContainer r.name s with
      | (.error err, s1) => ([.ContainerNotFound r.name err], s1)
      | (.ok con, s1) =>
        match rt.RemoveContainer con query.Force query.Vols s1 with
        | (some err, s2) => ([.InternalServerError err], s2)
        | (none, s2) => ([.WriteResponse StatusNoContent ""], s2)

/-- The conversion `uint(sig)` of a signal number. -/
def toUint (sig : Int) : Nat := (sig % 18446744073709551616).toNat

/-- The handler `KillContainer` from the result `killed` of `con.Kill` on
(lines 181-199). An error of `Kill` is answered and the handler goes on. -/
def afterKill {σ κ : Type} (rt : CtrRuntime σ κ) (r : HttpRequest (Option String)) (con : κ)
    (killed : Option GoError × σ) : List Response × σ :=
  let written : List Response :=
    match killed.1 with
    | some err =>
      [.Error "Something went wrong." StatusInternalServerError
        (.wrapped ("unable to kill Container " ++ r.name) err)]
    | none => []
  if r.isLibpod then
    match rt.Wait con killed.2 with
    | (.error err, s1) =>
      (written ++ [.Error "Something went wrong." StatusInternalServerError
        (.wrapped ("failed to wait for Container " ++ rt.ID con) err)], s1)
    | (.ok _, s1) => (written ++ [.WriteResponse StatusNoContent ""], s1)
  else (written ++ [.WriteResponse StatusNoContent ""], killed.2)

/-- The handler `KillContainer` (lines 143-200): the responses written, in
order, and the runtime state. The query holds the parameter `signal` when it
is given; the default of `query.Signal` is "KILL". -/
def KillContainer {σ κ : Type} (rt : CtrRuntime σ κ) (r : HttpRequest (Option String)) (s : σ) :
    List Response × σ :=
  match r.query with
  | .error err =>
    ([.Error "Something went wrong." StatusBadRequest
        (.wrapped ("Failed to parse parameters for " ++ r.url) err)], s)
  | .ok param =>
    let signal := param.getD "KILL"
    match rt.ParseSignalNameOrNumber signal with
    | .error err => ([.InternalServerError err], s)
    | .ok sig =>
      match rt.LookupContainer r.name s with
      | (.error err, s1) => ([.ContainerNotFound r.name err], s1)
      | (.ok con, s1) =>
        match rt.State con s1 with
        | (.error err, s2) => ([.InternalServerError err], s2)
        | (.ok state, s2) =>
          if state = ContainerStateStopped ∨ state = ContainerStateExited then
            ([.Error ("Container " ++ r.name ++ " is not running") StatusConflict
                (.sentinel ("Cannot kill Container " ++ r.name ++ ", it is not running"))], s2)
          else afterKill rt r con (rt.Kill con (toUint sig) s2)

/-- A runtime for the examples: the state is the log of the calls made; the
container is its name, every container named in `known` is found and is in
the state `state`; removing a container fails when `removeErr` is set; the
signal `KILL` is 9, `TERM` is 15. -/
def loggingCtrRuntime (known : List String) (state : ContainerStatus)
    (removeErr : Option GoError) : CtrRuntime (List String) String where
  LookupContainer := fun name log =>
    (if name ∈ known then .ok name else .error (.sentinel "no such container"), log ++ ["lookup " ++ name])
  RemoveContainer := fun con force vols log =>
    (removeErr, log ++ ["remove " ++ con ++ (if force then " force" else "") ++ (if vols then " v" else "")])
  State := fun con log => (.ok state, log ++ ["state " ++ con])
  Kill := fun con sig log => (none, log ++ ["kill " ++ con ++ " " ++ toString sig])
  Wait := fun con log => (.ok 0, log ++ ["wait " ++ con])
  ID := fun con => con
  ParseSignalNameOrNumber := fun name =>
    if name = "KILL" then .ok 9 else if name = "TERM" then .ok 15
    else .error (.sentinel "invalid signal")

/-! ## The output of `pod ps` (`cmd/podman/pod_ps.go`) -/

/-- The constant `NUM_CTR_INFO`. -/
def NUM_CTR_INFO : Nat := 10

/-- The struct `podPsCtrInfo`. -/
structure podPsCtrInfo where
  Name : String
  Id : String
  Status : String
  deriving DecidableEq, Repr

/-- The struct `podPsOptions`; `SortBy` is the field `Sort`. -/
structure podPsOptions where
  NoTrunc : Bool
  Format : String
  SortBy : String
  Quiet : Bool
  NumberOfContainers : Bool
  Cgroup : Bool
  NamesOfContainers : Bool
  IdsOfContainers : Bool
  StatusOfContainers : Bool
  deriving DecidableEq, Repr

/-- The struct `podPsTemplateParams`. -/
structure podPsTemplateParams where
  Created : String
  ID : String
  Name : String
  NumberOfContainers : Int
  Status : String
  Cgroup : String
  ContainerInfo : String
  InfraID : String
  Namespaces : String
  deriving DecidableEq, Repr

/-- The struct `podPsJSONParams`; the time `CreatedAt` is a number of
nanoseconds. -/
structure podPsJSONParams where
  CreatedAt : Int
  ID : String
  Name : String
  NumberOfContainers : Int
  Status : String
  CtrsInfo : List podPsCtrInfo
  Cgroup : String
  InfraID : String
  Namespaces : List String
  deriving DecidableEq, Repr

/-- What `pod ps` calls outside its file: `sort.Sort` of the standard
library on a slice with the given `Less`, the function `shortID`, the text
`units.HumanDuration(time.Since(t))` of a creation time, and the header map,
which `podHeaderMap` computes from the type of its receiver. -/
structure PsEnv where
  sortSort : (podPsJSONParams → podPsJSONParams → Bool) → List podPsJSONParams →
    List podPsJSONParams
  shortID : String → String
  humanDuration : Int → String
  podHeaderMap : podPsTemplateParams → List (String × String)

/-- The method `Less` of `podPsSortedCreated`. -/
def lessCreated (a b : podPsJSONParams) : Bool := decide (a.CreatedAt > b.CreatedAt)
/-- The method `Less` of `podPsSortedId`. -/
def lessId (a b : podPsJSONParams) : Bool := decide (a.ID < b.ID)
/-- The method `Less` of `podPsSortedNumber`. -/
def lessNumber (a b : podPsJSONParams) : Bool := decide (a.CtrsInfo.length < b.CtrsInfo.length)
/-- The method `Less` of `podPsSortedName`. -/
def lessName (a b : podPsJSONParams) : Bool := decide (a.Name < b.Name)
/-- The method `Less` of `podPsSortedStatus`. -/
def lessStatus (a b : podPsJSONParams) : Bool := decide (a.Status < b.Status)

/-- The function `sortPodPsOutput` (lines 273-289). -/
def sortPodPsOutput (env : PsEnv) (sortBy : String) (psOutput : List podPsJSONParams) :
    Except GoError (List podPsJSONParams) :=
  if sortBy = "created" then .ok (env.sortSort lessCreated psOutput)
  else if sortBy = "id" then .ok (env.sortSort lessId psOutput)
  else if sortBy = "name" then .ok (env.sortSort lessName psOutput)
  else if sortBy = "number" then .ok (env.sortSort lessNumber psOutput)
  else if sortBy = "status" then .ok (env.sortSort lessStatus psOutput)
  else .error (.sentinel "invalid option for --sort, options are: id, names, or number")

/-- The inner loop of `getPodTemplateOutput` (lines 311-329): the text of
the container infos. -/
def ctrInfoString (env : PsEnv) (opts : podPsOptions) : List podPsCtrInfo → String → String
  | [], ctrStr => ctrStr
  | ctrInfo :: ctrsInfo, ctrStr =>
    let infoSlice : List String := []
    let infoSlice :=
      if opts.IdsOfContainers then
        if opts.NoTrunc then infoSlice ++ [ctrInfo.Id] else infoSlice ++ [env.shortID ctrInfo.Id]
      else infoSlice
    let infoSlice := if opts.NamesOfContainers then infoSlice ++ [ctrInfo.Name] else infoSlice
    let infoSlice := if opts.StatusOfContainers then infoSlice ++ [ctrInfo.Status] else infoSlice
    let ctrStr :=
      if infoSlice.length ≠ 0 then ctrStr ++ ("[" ++ String.intercalate "," infoSlice ++ "] ")
      else ctrStr
    ctrInfoString env opts ctrsInfo ctrStr

/-- The body of the loop of `getPodTemplateOutput` (lines 298-341): the
template row of one pod. -/
def templateRow (env : PsEnv) (opts : podPsOptions) (psParam : podPsJSONParams) :
    podPsTemplateParams :=
  let podID := if !opts.NoTrunc then env.shortID psParam.ID else psParam.ID
  let cut : Bool := !opts.NoTrunc && decide (psParam.CtrsInfo.length > NUM_CTR_INFO)
  let ctrsInfo := if cut then psParam.CtrsInfo.take NUM_CTR_INFO else psParam.CtrsInfo
  let truncated := if cut then "..." else ""
  let infraID := if !opts.NoTrunc then env.shortID psParam.InfraID else psParam.InfraID
  let ctrStr := ctrInfoString env opts ctrsInfo "" ++ truncated
  { Created := env.humanDuration psParam.CreatedAt ++ " ago",
    ID := podID,
    Name := psParam.Name,
    Status := psParam.Status,
    NumberOfContainers := psParam.NumberOfContainers,
    Cgroup := psParam.Cgroup,
    ContainerInfo := ctrStr,
    InfraID := infraID,
    Namespaces := String.intercalate "," psParam.Namespaces }

/-- The function `getPodTemplateOutput` (lines 292-347): one row is appended
for every element of `psParams`; the error returned is always nil. -/
def getPodTemplateOutput (env : PsEnv) (psParams : List podPsJSONParams) (opts : podPsOptions) :
    Except GoError (List podPsTemplateParams) :=
  .ok (psParams.map (templateRow env opts))

/-- A member container as `getAndSortPodJSONParams` sees it: its ID and what
`adapter.BatchContainerOp` returns for it (the state and the configured name,
or an error). -/
structure PsContainer where
  id : String
  batch : Except GoError (ContainerStatus × String)

/-- A pod as `getAndSortPodJSONParams` sees it: what its methods return. -/
structure PsPod where
  ID : String
  Name : String
  CreatedTime : Int
  CgroupParent : String
  Namespaces : List String
  AllContainers : Except GoError (List PsContainer)
  GetPodStatus : Except GoError String
  InfraContainerID : Except GoError String

/-- The loop over `ctrs` of `getAndSortPodJSONParams` (lines 397-422): one
`podPsCtrInfo` per container, or the first error of `BatchContainerOp`. -/
def ctrsInfoLoop : List PsContainer → List podPsCtrInfo → Except GoError (List podPsCtrInfo)
  | [], ctrsInfo => .ok ctrsInfo
  | ctr :: ctrs, ctrsInfo =>
    match ctr.batch with
    | .error err => .error err
    | .ok (conState, name) =>
      ctrsInfoLoop ctrs (ctrsInfo ++ [⟨name, ctr.id, ctrStatusLabel conState⟩])

/-- The body of the loop over `pods` of `getAndSortPodJSONParams` (lines
382-433): the parameters of one pod, or the first error. -/
def podJSONParams (pod : PsPod) : Except GoError podPsJSONParams :=
  match pod.AllContainers with
  | .error err => .error err
  | .ok ctrs =>
    let ctrNum : Int := ctrs.length
    match pod.GetPodStatus with
    | .error err => .error err
    | .ok status =>
      match pod.InfraContainerID with
      | .error err => .error err
      | .ok infraID =>
        match ctrsInfoLoop ctrs [] with
        | .error err => .error err
        | .ok ctrsInfo =>
          .ok { CreatedAt := pod.CreatedTime, ID := pod.ID, Name := pod.Name, Status := status,
                Cgroup := pod.CgroupParent, NumberOfContainers := ctrNum, CtrsInfo := ctrsInfo,
                Namespaces := pod.Namespaces, InfraID := infraID }

/-- The loop over `pods` of `getAndSortPodJSONParams` (lines 381-436). -/
def podJSONLoop : List PsPod → List podPsJSONParams → Except GoError (List podPsJSONParams)
  | [], psOutput => .ok psOutput
  | pod :: pods, psOutput =>
    match podJSONParams pod with
    | .error err => .error err
    | .ok params => podJSONLoop pods (psOutput ++ [params])

/-- The function `getAndSortPodJSONParams` (lines 376-438). -/
def getAndSortPodJSONParams (env : PsEnv) (pods : List PsPod) (opts : podPsOptions) :
    Except GoError (List podPsJSONParams) :=
  match podJSONLoop pods [] with
  | .error err => .error err
  | .ok psOutput => sortPodPsOutput env opts.SortBy psOutput

/-- An element of the generic slice that `podPsToGeneric` builds. -/
inductive PsGeneric where
  | template (v : podPsTemplateParams)
  | json (v : podPsJSONParams)
  deriving DecidableEq, Repr

/-- The function `podPsToGeneric` (lines 241-252). -/
def podPsToGeneric (templParams : List podPsTemplateParams) (jsonParams : List podPsJSONParams) :
    List PsGeneric :=
  if templParams.length > 0 then templParams.map PsGeneric.template
  else jsonParams.map PsGeneric.json

/-- The writer of `formats` on which `generatePodPsOutput` calls `Out`. -/
inductive PsWriter where
  | JSONStructArray (Output : List PsGeneric)
  | StdoutTemplateArray (Output : List PsGeneric) (Template : String)
      (Fields : List (String × String))
  deriving DecidableEq, Repr

/-- How `generatePodPsOutput` ends: with a run-time panic (an index out of
range), with `return` of an error or of nil, or with `return out.Out()` on
the writer `out`. -/
inductive PsOutcome where
  | panic
  | returned (err : Option GoError)
  | out (w : PsWriter)
  deriving DecidableEq, Repr

/-- The function `generatePodPsOutput` (lines 440-462); `psOutput[0]` panics
on an empty slice. -/
def generatePodPsOutput (env : PsEnv) (pods : List PsPod) (opts : podPsOptions) : PsOutcome :=
  if pods.length = 0 ∧ opts.Format ≠ JSONString then .returned none
  else
    match getAndSortPodJSONParams env pods opts with
    | .error err => .returned (some err)
    | .ok psOutput =>
      if opts.Format = JSONString then
        .out (.JSONStructArray (podPsToGeneric [] psOutput))
      else
        match getPodTemplateOutput env psOutput opts with
        | .error err => .returned (some (.wrapped "unable to create output" err))
        | .ok psOutput =>
          match psOutput with
          | [] => .panic
          | first :: _ =>
            .out (.StdoutTemplateArray (podPsToGeneric psOutput []) opts.Format
              (env.podHeaderMap first))

/-- An environment for the examples: `sort.Sort` as an insertion sort, IDs
cut to 12 characters. -/
def plainPsEnv : PsEnv where
  sortSort := fun less l => l.insertionSort (fun a b => less a b = true)
  shortID := fun id => id.take 12
  humanDuration := fun _ => "1 hour"
  podHeaderMap := fun _ => [("ID", "POD ID"), ("Name", "NAME")]

/-! ## Seccomp paths of `play kube` (`pkg/adapter/pods.go`) -/

/-- How a function that can index out of range ends: with a run-time panic,
or with its results. -/
inductive Ran (α : Type) where
  | panic
  | done (v : α)
  deriving DecidableEq, Repr

/-- The constant `v1.SeccompContainerAnnotationKeyPrefix` of the Kubernetes
API. -/
def SeccompContainerAnnotationKeyPrefix : String :=
  "container.seccomp.security.alpha.kubernetes.io/"
/-- The constant `v1.SeccompPodAnnotationKey` of the Kubernetes API. -/
def SeccompPodAnnotationKey : String := "seccomp.security.alpha.kubernetes.io/pod"
/-- The constant `v1.DeprecatedSeccompProfileDockerDefault`. -/
def DeprecatedSeccompProfileDockerDefault : String := "docker/default"
/-- The constant `v1.SeccompProfileRuntimeDefault`. -/
def SeccompProfileRuntimeDefault : String := "runtime/default"

/-- The pieces of a text between the occurrences of the character `sep`. -/
def splitChars (sep : Char) : List Char → List (List Char)
  | [] => [[]]
  | c :: cs =>
    if c = sep then [] :: splitChars sep cs
    else
      match splitChars sep cs with
      | [] => [[c]]
      | piece :: pieces => (c :: piece) :: pieces

/-- The function `strings.Split(s, sep)` for a separator of one character. -/
def stringsSplit (s : String) (sep : Char) : List String :=
  (splitChars sep s.data).map String.mk

/-- A `map[string]string` as the list of its entries; ranging over it visits
the entries in the order of the list. -/
abbrev StrMap := List (String × String)

/-- The map assignment `m[k] = v`. -/
def StrMap.set : StrMap → String → String → StrMap
  | [], k, v => [(k, v)]
  | (k0, v0) :: m, k, v => if k0 = k then (k, v) :: m else (k0, v0) :: StrMap.set m k v

/-- The struct `kubeSeccompPaths`. -/
structure kubeSeccompPaths where
  containerPaths : StrMap
  podPath : String
  deriving DecidableEq, Repr

/-- The method `findForContainer` (lines 975-980). -/
def kubeSeccompPaths.findForContainer (k : kubeSeccompPaths) (ctrName : String) : String :=
  match k.containerPaths.lookup ctrName with
  | some path => path
  | none => k.podPath

/-- What the seccomp functions call outside their file:
`libpod.DefaultSeccompPath()` and `filepath.Join` of two elements. -/
structure SeccompEnv where
  DefaultSeccompPath : Except GoError String
  filepathJoin : String → String → String

/-- The function `verifySeccompPath` (lines 1023-1038); `parts[1]` panics
when `parts` has one element. -/
def verifySeccompPath (env : SeccompEnv) (path : String) (profileRoot : String) :
    Ran (Except GoError String) :=
  if path = DeprecatedSeccompProfileDockerDefault ∨ path = SeccompProfileRuntimeDefault then
    .done env.DefaultSeccompPath
  else if path = "unconfined" then .done (.ok path)
  else
    match stringsSplit path '/' with
    | [] => .panic
    | part0 :: rest =>
      if part0 = "localhost" then
        match rest with
        | [] => .panic
        | part1 :: _ => .done (.ok (env.filepathJoin profileRoot part1))
      else .done (.error (.sentinel ("invalid seccomp path: " ++ path)))

/-- The loop over `annotations` of `initializeSeccompPaths` (lines
989-1006), with the map `containerPaths` built so far. -/
def seccompContainerPaths (env : SeccompEnv) (profileRoot : String) :
    StrMap → StrMap → Ran (Except GoError StrMap)
  | [], containerPaths => .done (.ok containerPaths)
  | (annKeyValue, seccomp) :: annotations, containerPaths =>
    match stringsSplit annKeyValue '/' with
    | [] => .panic
    | part0 :: rest =>
      if part0 ++ "/" ≠ SeccompContainerAnnotationKeyPrefix then
        seccompContainerPaths env profileRoot annotations containerPaths
      else if (part0 :: rest).length ≠ 2 then
        .done (.error (.sentinel ("Invalid seccomp path: " ++ part0)))
      else
        match verifySeccompPath env seccomp profileRoot with
        | .panic => .panic
        | .done (.error err) => .done (.error err)
        | .done (.ok path) =>
          match rest with
          | [] => .panic
          | part1 :: _ =>
            seccompContainerPaths env profileRoot annotations (containerPaths.set part1 path)

/-- The function `initializeSeccompPaths` (lines 985-1019); `none` is the
nil map. -/
def initializeSeccompPaths (env : SeccompEnv) (annotations : Option StrMap)
    (profileRoot : String) : Ran (Except GoError kubeSeccompPaths) :=
  match annotations with
  | none => .done (.ok ⟨[], ""⟩)
  | some annotations =>
    match seccompContainerPaths env profileRoot annotations [] with
    | .panic => .panic
    | .done (.error err) => .done (.error err)
    | .done (.ok containerPaths) =>
      let podPath : Ran (Except GoError String) :=
        match annotations.lookup SeccompPodAnnotationKey with
        | some podSeccomp => verifySeccompPath env podSeccomp profileRoot
        | none => .done env.DefaultSeccompPath
      match podPath with
      | .panic => .panic
      | .done (.error err) => .done (.error err)
      | .done (.ok podPath) => .done (.ok ⟨containerPaths, podPath⟩)

/-- An environment for the examples: a default profile, and a join that
puts a `/` between its two elements. -/
def plainSeccompEnv : SeccompEnv where
  DefaultSeccompPath := .ok "/usr/share/containers/seccomp.json"
  filepathJoin := fun root name => root ++ "/" ++ name

/-! ## The compat handlers `ListContainers` and `LogsFromContainer` -/

/-- The constant `http.StatusOK`. -/
def StatusOK : Nat := 200

/-- The decoded query of `ListContainers`; `limitFound` tells whether the URL
query has the key `limit`. -/
structure ListQuery where
  All : Bool
  Limit : Int
  Size : Bool
  limitFound : Bool
  deriving DecidableEq, Repr

/-- The calls `ListContainers` makes on the libpod runtime, whose state is
`σ`; `κ` is a container, `ι` the system info and `β` an
`handlers.Container`. -/
structure ListRuntime (σ κ ι β : Type) where
  /-- Method `runtime.GetAllContainers()`. -/
  GetAllContainers : σ → Except GoError (List κ) × σ
  /-- Method `runtime.GetRunningContainers()`. -/
  GetRunningContainers : σ → Except GoError (List κ) × σ
  /-- Method `runtime.Info()`. -/
  Info : σ → Except GoError ι × σ
  /-- Function `handlers.LibpodToContainer(ctnr, infoData, size)`. -/
  LibpodToContainer : κ → ι → Bool → Except GoError β

/-- Lines 87-92 of `ListContainers`: the slice expression
`containers[len(containers)-last:]` panics when its low bound is negative or
beyond the length. -/
def limitContainers {κ : Type} (found : Bool) (limit : Int) (containers : List κ) :
    Ran (List κ) :=
  if found && limit != -1 then
    let last := limit
    if (containers.length : Int) > last then
      let low : Int := containers.length - last
      if low < 0 ∨ low > containers.length then .panic
      else .done (containers.drop low.toNat)
    else .done containers
  else .done containers

/-- The loop that fills `list` in `ListContainers` (lines 101-108). -/
def toApiContainers {σ κ ι β : Type} (rt : ListRuntime σ κ ι β) (infoData : ι) (size : Bool) :
    List κ → List β → Except GoError (List β)
  | [], list => .ok list
  | ctnr :: containers, list =>
    match rt.LibpodToContainer ctnr infoData size with
    | .error err => .error err
    | .ok api => toApiContainers rt infoData size containers (list ++ [api])

/-- What `ListContainers` writes: an error response, or the status 200 with
the list. -/
inductive ListResponse (β : Type) where
  | failed (resp : Response)
  | listed (code : Nat) (list : List β)

/-- The handler `ListContainers` (lines 61-110). -/
def ListContainers {σ κ ι β : Type} (rt : ListRuntime σ κ ι β) (r : HttpRequest ListQuery)
    (s : σ) : Ran (ListResponse β × σ) :=
  match r.query with
  | .error err =>
    .done (.failed (.Error "Something went wrong." StatusBadRequest
      (.wrapped ("Failed to parse parameters for " ++ r.url) err)), s)
  | .ok query =>
    match (if query.All then rt.GetAllContainers s else rt.GetRunningContainers s) with
    | (.error err, s1) => .done (.failed (.InternalServerError err), s1)
    | (.ok containers, s1) =>
      match limitContainers query.limitFound query.Limit containers with
      | .panic => .panic
      | .done containers =>
        match rt.Info s1 with
        | (.error err, s2) =>
          .done (.failed (.InternalServerError (.wrapped "Failed to obtain system info" err)), s2)
        | (.ok infoData, s2) =>
          match toApiContainers rt infoData query.Size containers [] with
          | .error err => .done (.failed (.InternalServerError err), s2)
          | .ok list => .done (.listed StatusOK list, s2)

/-- A runtime for the examples: the containers are names, three of them of
which two run. -/
def plainListRuntime : ListRuntime Unit String Unit String where
  GetAllContainers := fun s => (.ok ["db", "web", "cache"], s)
  GetRunningContainers := fun s => (.ok ["web", "cache"], s)
  Info := fun s => (.ok (), s)
  LibpodToContainer := fun ctnr _ _ => .ok ctnr

/-- The decoded query of `LogsFromContainer`. `Since` and `Until` hold the
value of the parameter when the URL query has the key, `Tail` likewise (the
default of `query.Tail` is "all"). -/
structure LogsQuery where
  Follow : Bool
  Stdout : Bool
  Stderr : Bool
  Since : Option String
  Until : Option String
  Timestamps : Bool
  Tail : Option String
  deriving DecidableEq, Repr

/-- The fields of `logs.LogOptions` that `LogsFromContainer` sets; a time is
a number of nanoseconds from the zero time. -/
structure LogOptions where
  Details : Bool
  Follow : Bool
  Since : Int
  Tail : Int
  Timestamps : Bool
  deriving DecidableEq, Repr

/-- The fields of `logs.LogLine` that `LogsFromContainer` reads. -/
structure LogLine where
  Device : String
  Msg : String
  Time : Int
  deriving DecidableEq, Repr

/-- What `LogsFromContainer` calls outside its file. -/
structure LogsEnv (σ κ : Type) where
  /-- Method `runtime.LookupContainer(name)`. -/
  LookupContainer : String → σ → Except GoError κ × σ
  /-- Function `strconv.ParseInt(value, 0, 64)`. -/
  ParseInt : String → Except GoError Int
  /-- Function `util.ParseInputTime`. -/
  ParseInputTime : String → Except GoError Int
  /-- Method `runtime.Log(containers, options, logChannel)`. -/
  Log : κ → LogOptions → σ → Option GoError × σ
  /-- Method `line.Time.Format(time.RFC3339)`. -/
  formatTime : Int → String

/-- The value of an `int64` expression: the integer wrapped into the range
of 64 bits. -/
def wrapInt64 (n : Int) : Int :=
  (n + 9223372036854775808) % 18446744073709551616 - 9223372036854775808

/-- How `LogsFromContainer` stands when it starts to write lines: it has
answered and returned, it has panicked (`make` with a negative size), or it
has written the status 200 and reads `logChannel`, of the capacity given,
with the options handed to `runtime.Log` and the value `untilTime` of the
variable `until`. -/
inductive LogsStart (σ κ : Type) where
  | responded (resp : Response) (s : σ)
  | panic
  | streaming (ctnr : κ) (options : LogOptions) (untilTime : Int) (capacity : Int) (s : σ)

/-- The handler `LogsFromContainer` up to `w.WriteHeader(http.StatusOK)`
(lines 217-298). -/
def LogsFromContainer {σ κ : Type} (env : LogsEnv σ κ) (r : HttpRequest LogsQuery) (s : σ) :
    LogsStart σ κ :=
  match r.query with
  | .error err =>
    .responded (.Error "Something went wrong." StatusBadRequest
      (.wrapped ("Failed to parse parameters for " ++ r.url) err)) s
  | .ok query =>
    if !(query.Stdout || query.Stderr) then
      .responded (.Error "Bad Request: you must choose at least one stream" StatusBadRequest
        (.sentinel ("Bad Request: you must choose at least one stream for " ++ r.url))) s
    else
      match env.LookupContainer r.name s with
      | (.error err, s1) => .responded (.ContainerNotFound r.name err) s1
      | (.ok ctnr, s1) =>
        let queryTail := query.Tail.getD "all"
        let tailParsed : Except GoError Int :=
          if queryTail ≠ "all" then env.ParseInt queryTail else .ok (-1)
        match tailParsed with
        | .error err => .responded (.BadRequest "tail" queryTail err) s1
        | .ok tail =>
          let since : Int := 0
          let sinceParsed : Except GoError Int :=
            match query.Since with
            | some value => env.ParseInputTime value
            | none => .ok since
          match sinceParsed with
          | .error err => .responded (.BadRequest "since" (query.Since.getD "") err) s1
          | .ok since =>
            let untilTime : Int := 0
            let untilParsed : Except GoError Int :=
              match query.Until with
              | some value => env.ParseInputTime value
              | none => .ok since
            match untilParsed with
            | .error err => .responded (.BadRequest "until" (query.Until.getD "") err) s1
            | .ok since =>
              let options : LogOptions :=
                { Details := true, Follow := query.Follow, Since := since, Tail := tail,
                  Timestamps := query.Timestamps }
              let capacity := wrapInt64 (tail + 1)
              if capacity < 0 then .panic
              else
                match env.Log ctnr options s1 with
                | (some err, s2) =>
                  .responded (.InternalServerError
                    (.wrapped ("Failed to obtain logs for Container " ++ r.name) err)) s2
                | (none, s2) => .streaming ctnr options untilTime capacity s2

/-- A frame written for a log line: the stream in `header[0]`, the size in
`header[4:]` and the text. -/
structure LogFrame where
  stream : Nat
  size : Nat
  text : String
  deriving DecidableEq, Repr

/-- One pass of `for line := range logChannel` (lines 301-346) over the
lines the channel delivers: the frames written and the lines not read. A line
after the value of `until` ends the pass when the URL query has the key `until`. -/
def logRange {σ κ : Type} (env : LogsEnv σ κ) (query : LogsQuery) (untilTime : Int) :
    List LogLine → List LogFrame → List LogFrame × List LogLine
  | [], frames => (frames, [])
  | line :: lines, frames =>
    if query.Until.isSome && decide (line.Time > untilTime) then (frames, lines)
    else
      let stream : Option Nat :=
        if line.Device = "stdout" then (if !query.Stdout then none else some 1)
        else if line.Device = "stderr" then (if !query.Stderr then none else some 2)
        else none
      match stream with
      | none => logRange env query untilTime lines frames
      | some header0 =>
        let text :=
          (if query.Timestamps then env.formatTime line.Time ++ " " else "") ++ line.Msg
        logRange env query untilTime lines
          (frames ++ [⟨header0, (8 + text.utf8ByteSize) % 4294967296, text⟩])

/-- An environment for the examples: one container `web`; the numbers and
times that parse are those listed. -/
def plainLogsEnv : LogsEnv Unit String where
  LookupContainer := fun name s =>
    (if name = "web" then .ok name else .error (.sentinel "no such container"), s)
  ParseInt := fun value =>
    if value = "10" then .ok 10 else if value = "-2" then .ok (-2)
    else .error (.sentinel "invalid syntax")
  ParseInputTime := fun value =>
    if value = "100" then .ok 100 else if value = "200" then .ok 200
    else .error (.sentinel "unable to parse time")
  Log := fun _ _ s => (none, s)
  formatTime := fun _ => "time"

/-! ## Volume filters (`pkg/domain/filters/volumes.go`) -/

/-- A volume as the filters see it: what the methods of `libpod.Volume`
return. -/
structure Volume where
  Name : String
  Driver : String
  Scope : String
  Labels : StrMap
  Options : StrMap
  deriving DecidableEq, Repr

/-- The type `libpod.VolumeFilter`. -/
abbrev VolumeFilter := Volume → Bool

/-- The function `strings.SplitN(s, sep, 2)` for a separator of one
character: the text before the first `sep` and the text behind it, or the
text alone when it has no `sep`. -/
def stringsSplitN2 (s : String) (sep : Char) : List String :=
  match s.data.dropWhile (fun c => c != sep) with
  | [] => [s]
  | _ :: rest => [String.mk (s.data.takeWhile (fun c => c != sep)), String.mk rest]

/-- The closure of the cases `label` and `opt` (lines 39-46 and 57-64): some
entry of the map has the key `filterKey` and, unless `filterVal` is empty,
the value `filterVal`. -/
def matchesEntry (filterKey filterVal : String) : StrMap → Bool
  | [] => false
  | (labelKey, labelValue) :: entries =>
    if labelKey == filterKey && ("" == filterVal || labelValue == filterVal) then true
    else matchesEntry filterKey filterVal entries

/-- Lines 30-38 and 48-56: the key and the value of a `label` or `opt`
filter. -/
def filterKeyVal (val : String) : String × String :=
  let filterArray := stringsSplitN2 val '='
  let filterKey := filterArray.headD ""
  let filterVal := if filterArray.length > 1 then filterArray.getD 1 "" else ""
  (filterKey, filterVal)

/-- The `switch filter` of `GenerateVolumeFilters` (lines 14-67): the filter
appended for the value `val`, or `none` in the `default` case. -/
def volumeFilterFor (filter val : String) : Option VolumeFilter :=
  if filter = "name" then some (fun v => val == v.Name)
  else if filter = "driver" then some (fun v => v.Driver == val)
  else if filter = "scope" then some (fun v => v.Scope == val)
  else if filter = "label" then
    some (fun v => matchesEntry (filterKeyVal val).1 (filterKeyVal val).2 v.Labels)
  else if filter = "opt" then
    some (fun v => matchesEntry (filterKeyVal val).1 (filterKeyVal val).2 v.Options)
  else none

/-- The inner loop `for _, val := range v` of `GenerateVolumeFilters`. -/
def volumeFilterValues (filter : String) :
    List String → List VolumeFilter → Except GoError (List VolumeFilter)
  | [], vf => .ok vf
  | val :: vals, vf =>
    match volumeFilterFor filter val with
    | none => .error (.sentinel ("\"" ++ filter ++ "\" is in an invalid volume filter"))
    | some f => volumeFilterValues filter vals (vf ++ [f])

/-- The outer loop `for filter, v := range filters` of
`GenerateVolumeFilters`, over the entries of the map in the order in which
they are visited. -/
def volumeFilterLoop :
    List (String × List String) → List VolumeFilter → Except GoError (List VolumeFilter)
  | [], vf => .ok vf
  | (filter, v) :: filters, vf =>
    match volumeFilterValues filter v vf with
    | .error err => .error err
    | .ok vf => volumeFilterLoop filters vf

/-- The function `GenerateVolumeFilters` (lines 10-70). -/
def GenerateVolumeFilters (filters : List (String × List String)) :
    Except GoError (List VolumeFilter) :=
  volumeFilterLoop filters []

/-- The keys that the `switch` knows. -/
def volumeFilterKeys : List String := ["name", "driver", "scope", "label", "opt"]

/-- The (key, value) pairs of a filter map, in the order in which the loops
visit them. -/
def filterPairs (filters : List (String × List String)) : List (String × String) :=
  filters.flatMap (fun kv => kv.2.map (fun val => (kv.1, val)))

/-- The predicate of a (key, value) pair in the words of the specification:
the name, driver or scope of the volume is the value; or, for `label` and
`opt`, the volume has an entry whose key is the text before the first `=` and
whose value, unless the text behind it is empty or missing, is that text. -/
def pairAccepts (key val : String) (v : Volume) : Bool :=
  if key = "name" then v.Name == val
  else if key = "driver" then v.Driver == val
  else if key = "scope" then v.Scope == val
  else
    let entries := if key = "label" then v.Labels else v.Options
    let k := (filterKeyVal val).1
    let w := (filterKeyVal val).2
    entries.any (fun e => e.1 == k && (w == "" || e.2 == w))

/-- The status label of a container state in the words of the
specification: "Exited" for Exited and Stopped, "Running" for Running,
"Paused" for Paused, "Created" for Created and Configured, "Error" for every
other state. The switch of the source is `ctrStatusLabel`. -/
def labelInWords (s : ContainerStatus) : String :=
  if s = ContainerStateExited ∨ s = ContainerStateStopped then "Exited"
  else if s = ContainerStateRunning then "Running"
  else if s = ContainerStatePaused then "Paused"
  else if s = ContainerStateCreated ∨ s = ContainerStateConfigured then "Created"
  else "Error"

/-! # Properties -/

/-! ## Status labels -/

/-- The switch of `getAndSortPodJSONParams` gives the label of the
specification. -/
theorem ctrStatusLabel_inWords (s : ContainerStatus) : ctrStatusLabel s = labelInWords s := by
  cases s <;> simp [ctrStatusLabel, labelInWords, EXITED, RUNNING, PAUSED, CREATED, ERROR]

/-- The loop over the containers appends, for every container whose
`BatchContainerOp` succeeds, its name, its ID and the label of its state. -/
theorem ctrsInfoLoop_labels (items : List (String × ContainerStatus × String)) :
    ∀ acc : List podPsCtrInfo,
      ctrsInfoLoop (items.map (fun t => ⟨t.1, .ok (t.2.1, t.2.2)⟩)) acc
        = .ok (acc ++ items.map (fun t => ⟨t.2.2, t.1, labelInWords t.2.1⟩)) := by
  induction items with
  | nil => intro acc; simp [ctrsInfoLoop]
  | cons t items ih =>
    intro acc
    simp [ctrsInfoLoop, ih, ctrStatusLabel_inWords]

/-- C1: for every low-level container state, the per-container status label
computed in `getAndSortPodJSONParams` is "Exited" for Exited and Stopped,
"Running" for Running, "Paused" for Paused, "Created" for Created and
Configured, and "Error" for every other state (Stopping, Removing, Unknown
and every value that is no named constant): for every list of containers,
given by their ID, state and name, the loop over the containers (lines
397-422) yields one `podPsCtrInfo` per container, in order, whose `Status` is
that label of the state of the container, and these are the `CtrsInfo` of the
parameters of the pod. -/
theorem C1_ctr_status_label (items : List (String × ContainerStatus × String))
    (acc : List podPsCtrInfo) (podID podName cgroup status infraID : String) (created : Int)
    (namespaces : List String) :
    ctrsInfoLoop (items.map (fun t => ⟨t.1, .ok (t.2.1, t.2.2)⟩)) acc
      = .ok (acc ++ items.map (fun t =>
          ⟨t.2.2, t.1,
            if t.2.1 = ContainerStateExited ∨ t.2.1 = ContainerStateStopped then "Exited"
            else if t.2.1 = ContainerStateRunning then "Running"
            else if t.2.1 = ContainerStatePaused then "Paused"
            else if t.2.1 = ContainerStateCreated ∨ t.2.1 = ContainerStateConfigured
              then "Created"
            else "Error"⟩))
    ∧ podJSONParams ⟨podID, podName, created, cgroup, namespaces,
          .ok (items.map (fun t => ⟨t.1, .ok (t.2.1, t.2.2)⟩)), .ok status, .ok infraID⟩
      = .ok { CreatedAt := created, ID := podID, Name := podName,
              NumberOfContainers := items.length, Status := status,
              CtrsInfo := items.map (fun t => ⟨t.2.2, t.1, labelInWords t.2.1⟩),
              Cgroup := cgroup, InfraID := infraID, Namespaces := namespaces }
    ∧ (∀ s : ContainerStatus,
        labelInWords s =
          (if s = ContainerStateExited ∨ s = ContainerStateStopped then "Exited"
          else if s = ContainerStateRunning then "Running"
          else if s = ContainerStatePaused then "Paused"
          else if s = ContainerStateCreated ∨ s = ContainerStateConfigured then "Created"
          else "Error")
        ∧ ctrStatusLabel s = labelInWords s) := by
  refine ⟨ctrsInfoLoop_labels items acc, ?_, fun s => ⟨rfl, ctrStatusLabel_inWords s⟩⟩
  simp [podJSONParams, ctrsInfoLoop_labels]

/-! ## The loops of the bulk operations -/

/-- The loop of `RemovePods` in closed form, over the results of the calls. -/
theorem removePodsLoop_eq {σ : Type} (rt : PodRuntime σ) (force : Bool) (pods : List Pod) :
    ∀ (s : σ) (podids : List String) (errs : List GoError),
      removePodsLoop rt force pods s podids errs =
        ((podids ++ ((removeRuns rt force pods s).filter (fun r => r.2.isNone)).map (fun r => r.1.id),
          errs ++ (removeRuns rt force pods s).filterMap (fun r => r.2)),
         removeRunsState rt force pods s) := by
  induction pods with
  | nil => intro s podids errs; simp [removePodsLoop, removeRuns, removeRunsState]
  | cons p pods ih =>
    intro s podids errs
    rcases h : rt.RemovePod p true force s with ⟨e, s1⟩
    cases e with
    | none => simp [removePodsLoop, removeRuns, removeRunsState, h, ih]
    | some err => simp [removePodsLoop, removeRuns, removeRunsState, h, ih]

/-- The calls of `RemovePod` are made on the pods of the list, in order. -/
theorem removeRuns_pods {σ : Type} (rt : PodRuntime σ) (force : Bool) (pods : List Pod) :
    ∀ s : σ, (removeRuns rt force pods s).map (fun r => r.1) = pods := by
  induction pods with
  | nil => intro s; rfl
  | cons p pods ih => intro s; simp [removeRuns, ih]

/-- The loop of `StopPods`, `KillPods` and `StartPods` in closed form. -/
theorem mergeLoop_eq {σ : Type} (op : Pod → σ → PodResult × σ) (pods : List Pod) :
    ∀ (s : σ) (podids : List String) (errs : List GoError),
      mergeLoop op pods s podids errs =
        ((podids ++ ((podRuns op pods s).filter (fun r => !r.2.flagged)).map (fun r => r.1.id),
          errs ++ (podRuns op pods s).flatMap (fun r => r.2.errors)),
         podRunsState op pods s) := by
  induction pods with
  | nil => intro s podids errs; simp [mergeLoop, podRuns, podRunsState]
  | cons p pods ih =>
    intro s podids errs
    rcases h : op p s with ⟨⟨conErrs, stopErr⟩, s1⟩
    cases conErrs <;> cases stopErr <;>
      simp [mergeLoop, podRuns, podRunsState, h, ih, PodResult.flagged, PodResult.errors]

/-- The pod operation is called on the pods of the list, in order. -/
theorem podRuns_pods {σ : Type} (op : Pod → σ → PodResult × σ) (pods : List Pod) :
    ∀ s : σ, (podRuns op pods s).map (fun r => r.1) = pods := by
  induction pods with
  | nil => intro s; rfl
  | cons p pods ih => intro s; simp [podRuns, ih]

/-- When the test of line 102 lets it pass, `RemovePods` is its loop. -/
theorem RemovePods_of_proceeds {σ : Type} (rt : PodRuntime σ) (cli : PodRmValues) (s s1 : σ)
    (pods : List Pod) (rerr : Option GoError)
    (hres : rt.GetPodsByContext cli.All cli.Latest cli.InputArgs s = ((pods, rerr), s1))
    (hgo : proceeds cli.Ignore rerr = true) :
    RemovePods rt cli s = removePodsLoop rt cli.Force pods s1 [] [] := by
  cases rerr with
  | none => simp [RemovePods, hres]
  | some e =>
    simp only [proceeds] at hgo
    simp [RemovePods, hres, hgo]

/-- When the test of line 171 lets it pass, `StopPods` is its loop. -/
theorem StopPods_of_proceeds {σ : Type} (rt : PodRuntime σ) (cli : PodStopValues) (s s1 : σ)
    (pods : List Pod) (rerr : Option GoError)
    (hres : rt.GetPodsByContext cli.All cli.Latest cli.InputArgs s = ((pods, rerr), s1))
    (hgo : proceeds cli.Ignore rerr = true) :
    StopPods rt cli s =
      mergeLoop (fun p => rt.StopWithTimeout p true (stopTimeout cli)) pods s1 [] [] := by
  cases rerr with
  | none => simp [StopPods, hres]
  | some e =>
    simp only [proceeds] at hgo
    simp [StopPods, hres, hgo]

/-- Every removal counts once: as an ID or as an error. -/
theorem removeRuns_count (runs : List (Pod × Option GoError)) :
    ((runs.filter (fun r => r.2.isNone)).map (fun r => r.1.id)).length
      + (runs.filterMap (fun r => r.2)).length = runs.length := by
  induction runs with
  | nil => rfl
  | cons r runs ih =>
    rcases r with ⟨p, e⟩
    cases e with
    | none => simp at ih ⊢; omega
    | some err => simp at ih ⊢; omega

/-- A result in which a layer produced an error fails the test of the loops. -/
theorem producedError_flagged (r : PodResult) (h : r.producedError = true) :
    r.flagged = true := by
  rcases r with ⟨conErrs, err⟩
  cases conErrs <;> cases err <;> simp_all [PodResult.producedError, PodResult.flagged]

/-! ## Two layers of error in `StopPods` and `KillPods` -/

/-- C2, as stated, fails: a pod whose operation returns a per-container map
that is not nil but empty, and no pod-level error, is left out of the IDs by
`StopPods` and by `KillPods` although neither layer produced an error (the
returned error list is empty). -/
theorem C2_counterexample_empty_map :
    (StopPods (scriptedRuntime ([⟨"p1"⟩], none) (fun _ => (some [], none)) (fun _ => none))
        ⟨⟨false, false, ["p1"]⟩, false, false, 0⟩ []).1 = ([], [])
    ∧ (KillPods (scriptedRuntime ([⟨"p1"⟩], none) (fun _ => (some [], none)) (fun _ => none))
        ⟨false, false, ["p1"]⟩ 9 []).1 = ([], [])
    ∧ PodResult.producedError (some [], none) = false := by
  refine ⟨?_, ?_, ?_⟩ <;> rfl

/-- C2 (amended): when resolution succeeds, `StopPods` and `KillPods` call the
pod operation on every resolved pod, once and in order; the returned IDs are
those of the pods whose result has a nil pod-level error and a nil
per-container map, in order; the returned error list holds, pod after pod,
the pod-level error and every per-container error. A pod for which a layer
produced an error is therefore always left out of the IDs. -/
theorem C2_stop_kill_merge_layers {σ : Type} (rt : PodRuntime σ) (cli : PodStopValues)
    (signal : Nat) (s s1 : σ) (pods : List Pod)
    (hres : rt.GetPodsByContext cli.All cli.Latest cli.InputArgs s = ((pods, none), s1)) :
    ((podRuns (fun p => rt.StopWithTimeout p true (stopTimeout cli)) pods s1).map (fun r => r.1)
        = pods
      ∧ (StopPods rt cli s).1.1
        = ((podRuns (fun p => rt.StopWithTimeout p true (stopTimeout cli)) pods s1).filter
            (fun r => !r.2.flagged)).map (fun r => r.1.id)
      ∧ (StopPods rt cli s).1.2
        = (podRuns (fun p => rt.StopWithTimeout p true (stopTimeout cli)) pods s1).flatMap
            (fun r => r.2.errors))
    ∧ ((podRuns (fun p => rt.Kill p signal) pods s1).map (fun r => r.1) = pods
      ∧ (KillPods rt cli.toPodSelector signal s).1.1
        = ((podRuns (fun p => rt.Kill p signal) pods s1).filter
            (fun r => !r.2.flagged)).map (fun r => r.1.id)
      ∧ (KillPods rt cli.toPodSelector signal s).1.2
        = (podRuns (fun p => rt.Kill p signal) pods s1).flatMap (fun r => r.2.errors))
    ∧ (∀ r : PodResult, r.flagged = (r.2.isSome || r.1.isSome))
    ∧ (∀ r : PodResult, r.producedError = true → r.flagged = true) := by
  refine ⟨⟨podRuns_pods _ _ _, ?_, ?_⟩, ⟨podRuns_pods _ _ _, ?_, ?_⟩, fun _ => rfl,
    producedError_flagged⟩
  · rw [StopPods_of_proceeds rt cli s s1 pods none hres rfl, mergeLoop_eq]; simp
  · rw [StopPods_of_proceeds rt cli s s1 pods none hres rfl, mergeLoop_eq]; simp
  · simp [KillPods, hres, mergeLoop_eq]
  · simp [KillPods, hres, mergeLoop_eq]

/-- Witness of C2 (amended): three pods, the first fails at pod level, the
second in a container, the third succeeds. -/
theorem C2_stop_kill_merge_layers_witness :
    (StopPods
        (scriptedRuntime ([⟨"a"⟩, ⟨"b"⟩, ⟨"c"⟩], none)
          (fun p => if p.id = "a" then (none, some (.sentinel "gone"))
            else if p.id = "b" then (some [("c1", .sentinel "busy")], none) else (none, none))
          (fun _ => none))
        ⟨⟨true, false, []⟩, false, false, 0⟩ []).1
      = (["c"], [.sentinel "gone", .sentinel "busy"]) := by
  have h := C2_stop_kill_merge_layers
    (scriptedRuntime ([⟨"a"⟩, ⟨"b"⟩, ⟨"c"⟩], none)
      (fun p => if p.id = "a" then (none, some (.sentinel "gone"))
        else if p.id = "b" then (some [("c1", .sentinel "busy")], none) else (none, none))
      (fun _ => none))
    ⟨⟨true, false, []⟩, false, false, 0⟩ 9 [] ["resolve"] [⟨"a"⟩, ⟨"b"⟩, ⟨"c"⟩] rfl
  exact Prod.ext (h.1.2.1.trans (by decide)) (h.1.2.2.trans (by decide))

/-! ## Two layers of error in `PausePods`, `UnpausePods` and `RestartPods` -/

/-- C3 fails on the code: when the pod operation returns a pod-level error
together with the per-container map `c1 ↦ busy`, `PausePods`, `UnpausePods`
and `RestartPods` report the pod-level error only; the `continue` after it
skips the merge and the container-error map they return is empty. -/
theorem C3_continue_drops_container_errors :
    (PausePods (scriptedRuntime ([⟨"p1"⟩], none)
        (fun _ => (some [("c1", .sentinel "busy")], some (.sentinel "some containers failed")))
        (fun _ => none)) ⟨false, false, ["p1"]⟩ []).1
      = ⟨[], [], [.sentinel "some containers failed"]⟩
    ∧ (UnpausePods (scriptedRuntime ([⟨"p1"⟩], none)
        (fun _ => (some [("c1", .sentinel "busy")], some (.sentinel "some containers failed")))
        (fun _ => none)) ⟨false, false, ["p1"]⟩ []).1
      = ⟨[], [], [.sentinel "some containers failed"]⟩
    ∧ (RestartPods (scriptedRuntime ([⟨"p1"⟩], none)
        (fun _ => (some [("c1", .sentinel "busy")], some (.sentinel "some containers failed")))
        (fun _ => none)) ⟨false, false, ["p1"]⟩ []).1
      = ⟨[], [], [.sentinel "some containers failed"]⟩ := by
  refine ⟨?_, ?_, ?_⟩ <;> rfl

/-! ## `RemovePods` -/

/-- C4: on every resolved list of pods, `RemovePods` calls `RemovePod` on
every pod, once and in order, whatever the earlier calls returned; the IDs
returned are those of the pods whose removal returned no error, in the order
of the pods; every other pod contributes exactly its one error; so the two
lengths add up to the number of pods. -/
theorem C4_remove_pods_partition {σ : Type} (rt : PodRuntime σ) (cli : PodRmValues) (s s1 : σ)
    (pods : List Pod) (rerr : Option GoError)
    (hres : rt.GetPodsByContext cli.All cli.Latest cli.InputArgs s = ((pods, rerr), s1))
    (hgo : proceeds cli.Ignore rerr = true) :
    (removeRuns rt cli.Force pods s1).map (fun r => r.1) = pods
    ∧ (RemovePods rt cli s).2 = removeRunsState rt cli.Force pods s1
    ∧ (RemovePods rt cli s).1.1
      = ((removeRuns rt cli.Force pods s1).filter (fun r => r.2.isNone)).map (fun r => r.1.id)
    ∧ (RemovePods rt cli s).1.2 = (removeRuns rt cli.Force pods s1).filterMap (fun r => r.2)
    ∧ (RemovePods rt cli s).1.1.length + (RemovePods rt cli s).1.2.length = pods.length
    ∧ List.Sublist (RemovePods rt cli s).1.1 (pods.map (fun p => p.id)) := by
  have hloop := RemovePods_of_proceeds rt cli s s1 pods rerr hres hgo
  rw [removePodsLoop_eq] at hloop
  have hpods := removeRuns_pods rt cli.Force pods s1
  refine ⟨hpods, by simp [hloop], by simp [hloop], by simp [hloop], ?_, ?_⟩
  · have hcount := removeRuns_count (removeRuns rt cli.Force pods s1)
    have hlen : (removeRuns rt cli.Force pods s1).length = pods.length := by
      rw [← congrArg List.length hpods, List.length_map]
    simp only [hloop, List.nil_append]
    omega
  · have hsub : List.Sublist
        (((removeRuns rt cli.Force pods s1).filter (fun r => r.2.isNone)).map (fun r => r.1.id))
        ((removeRuns rt cli.Force pods s1).map (fun r => r.1.id)) :=
      List.Sublist.map _ (List.filter_sublist _)
    have hmap : (removeRuns rt cli.Force pods s1).map (fun r => r.1.id)
        = pods.map (fun p => p.id) := by
      rw [← congrArg (List.map (fun p : Pod => p.id)) hpods, List.map_map]; rfl
    simpa [hloop, hmap] using hsub

/-- Witness of C4: of three pods the second cannot be removed. -/
theorem C4_remove_pods_partition_witness :
    (RemovePods
        (scriptedRuntime ([⟨"a"⟩, ⟨"b"⟩, ⟨"c"⟩], none) (fun _ => (none, none))
          (fun p => if p.id = "b" then some (.sentinel "running") else none))
        ⟨⟨true, false, []⟩, false, false⟩ [])
      = ((["a", "c"], [.sentinel "running"]), ["resolve", "rm a", "rm b", "rm c"]) := by
  have h := C4_remove_pods_partition
    (scriptedRuntime ([⟨"a"⟩, ⟨"b"⟩, ⟨"c"⟩], none) (fun _ => (none, none))
      (fun p => if p.id = "b" then some (.sentinel "running") else none))
    ⟨⟨true, false, []⟩, false, false⟩ [] ["resolve"] [⟨"a"⟩, ⟨"b"⟩, ⟨"c"⟩] none rfl rfl
  exact Prod.ext (Prod.ext (h.2.2.1.trans (by decide)) (h.2.2.2.1.trans (by decide)))
    (h.2.1.trans (by decide))

/-! ## Resolution errors -/

/-- C5: when `GetPodsByContext` returns the error `e`, `KillPods`,
`StartPods`, `PausePods`, `UnpausePods` and `RestartPods` return no ID and
exactly the error `e`, and leave the runtime in the state resolution left it
(no pod operation is called); `StopPods` and `RemovePods` do the same unless
`Ignore` is set and the cause of `e` is `ErrNoSuchPod`, in which case they
return what their loop returns over the pods that were resolved, which does
not include `e`. -/
theorem C5_resolution_error {σ : Type} (rt : PodRuntime σ) (sel : PodSelector) (signal : Nat)
    (ignore force timeoutChanged : Bool) (timeout : Nat) (s s1 : σ) (pods : List Pod)
    (e : GoError)
    (hres : rt.GetPodsByContext sel.All sel.Latest sel.InputArgs s = ((pods, some e), s1)) :
    KillPods rt sel signal s = (([], [e]), s1)
    ∧ StartPods rt sel s = (([], [e]), s1)
    ∧ PausePods rt sel s = (⟨[], [], [e]⟩, s1)
    ∧ UnpausePods rt sel s = (⟨[], [], [e]⟩, s1)
    ∧ RestartPods rt sel s = (⟨[], [], [e]⟩, s1)
    ∧ StopPods rt ⟨sel, ignore, timeoutChanged, timeout⟩ s
      = (if ignore = true ∧ errorsCause e = ErrNoSuchPod then
          ((((podRuns (fun p => rt.StopWithTimeout p true
                  (stopTimeout ⟨sel, ignore, timeoutChanged, timeout⟩)) pods s1).filter
                (fun r => !r.2.flagged)).map (fun r => r.1.id),
            (podRuns (fun p => rt.StopWithTimeout p true
                  (stopTimeout ⟨sel, ignore, timeoutChanged, timeout⟩)) pods s1).flatMap
                (fun r => r.2.errors)),
           podRunsState (fun p => rt.StopWithTimeout p true
                  (stopTimeout ⟨sel, ignore, timeoutChanged, timeout⟩)) pods s1)
        else (([], [e]), s1))
    ∧ RemovePods rt ⟨sel, ignore, force⟩ s
      = (if ignore = true ∧ errorsCause e = ErrNoSuchPod then
          ((((removeRuns rt force pods s1).filter (fun r => r.2.isNone)).map (fun r => r.1.id),
            (removeRuns rt force pods s1).filterMap (fun r => r.2)),
           removeRunsState rt force pods s1)
        else (([], [e]), s1)) := by
  refine ⟨by simp [KillPods, hres], by simp [StartPods, hres], by simp [PausePods, hres],
    by simp [UnpausePods, hres], by simp [RestartPods, hres], ?_, ?_⟩
  · by_cases hc : ignore = true ∧ errorsCause e = ErrNoSuchPod
    · rw [if_pos hc,
        StopPods_of_proceeds rt ⟨sel, ignore, timeoutChanged, timeout⟩ s s1 pods (some e) hres
          (by simpa [proceeds] using hc),
        mergeLoop_eq]
      simp
    · rw [if_neg hc]
      have hc2 : (ignore && decide (errorsCause e = ErrNoSuchPod)) = false := by
        cases ignore <;> simp_all
      simp [StopPods, hres, hc2]
  · by_cases hc : ignore = true ∧ errorsCause e = ErrNoSuchPod
    · rw [if_pos hc,
        RemovePods_of_proceeds rt ⟨sel, ignore, force⟩ s s1 pods (some e) hres
          (by simpa [proceeds] using hc),
        removePodsLoop_eq]
      simp
    · rw [if_neg hc]
      have hc2 : (ignore && decide (errorsCause e = ErrNoSuchPod)) = false := by
        cases ignore <;> simp_all
      simp [RemovePods, hres, hc2]

/-- Witness of C5: resolving `a` and `x` finds `a` only; with `Ignore` set
`StopPods` stops `a` and reports nothing, `KillPods` reports the resolution
error and calls nothing. -/
theorem C5_resolution_error_witness :
    StopPods
        (scriptedRuntime ([⟨"a"⟩], some (.wrapped "x" ErrNoSuchPod)) (fun _ => (none, none))
          (fun _ => none))
        ⟨⟨false, false, ["a", "x"]⟩, true, false, 0⟩ []
      = ((["a"], []), ["resolve", "stop a"])
    ∧ KillPods
        (scriptedRuntime ([⟨"a"⟩], some (.wrapped "x" ErrNoSuchPod)) (fun _ => (none, none))
          (fun _ => none))
        ⟨false, false, ["a", "x"]⟩ 9 []
      = (([], [.wrapped "x" ErrNoSuchPod]), ["resolve"]) := by
  have h := C5_resolution_error
    (scriptedRuntime ([⟨"a"⟩], some (.wrapped "x" ErrNoSuchPod)) (fun _ => (none, none))
      (fun _ => none))
    ⟨false, false, ["a", "x"]⟩ 9 true false false 0 [] ["resolve"] [⟨"a"⟩]
    (.wrapped "x" ErrNoSuchPod) rfl
  exact ⟨h.2.2.2.2.2.1.trans (by decide), h.1⟩

/-! ## `PrunePods` -/

/-- C6: `PrunePods` asks for the pods in the states Stopped and Exited when
`Force` is false, and for those in the states Stopped, Exited and Running
when it is true; Created is never among the states. So, whenever
`GetPodsByStatus` returns only pods whose status is one of the states it was
asked for, no pod with status Created is among the pods for which `PrunePods`
adds a job: a pod that was created and never started is not removed. -/
theorem C6_prune_states {σ π : Type} (rt : PodRuntime σ) (jp : JobPool σ π)
    (cli : PodPruneValues) (status : Pod → String) (s s1 : σ) (pods : List Pod)
    (hres : rt.GetPodsByStatus (pruneStates cli.Force) s = ((pods, none), s1))
    (hstatus : ∀ p ∈ pods, status p ∈ pruneStates cli.Force) :
    pruneStates false = ["Stopped", "Exited"]
    ∧ pruneStates true = ["Stopped", "Exited", "Running"]
    ∧ (∀ force, PodStateCreated ∉ pruneStates force)
    ∧ (∀ p ∈ pods, status p ≠ PodStateCreated)
    ∧ (prunePlan rt jp cli s).1
      = (if pods.length < 1 then PrunePlan.done [] [] none
         else PrunePlan.run ((pods.map (pruneJob rt cli)).foldl jp.Add
            (jp.NewPool "pod_prune" (pruneMaxWorkers jp cli) pods.length))) := by
  have hcreated : ∀ force, PodStateCreated ∉ pruneStates force := by
    intro force; cases force <;> decide
  refine ⟨rfl, rfl, hcreated, ?_, ?_⟩
  · intro p hp hc
    exact hcreated cli.Force (hc ▸ hstatus p hp)
  · simp only [prunePlan, hres, List.foldl_map]
    split <;> rfl

/-- Witness of C6: a forced prune finds one stopped pod; the pod `new`, in
the state Created, is not among the candidates. -/
theorem C6_prune_states_witness :
    (prunePlan (scriptedRuntime ([⟨"old"⟩], none) (fun _ => (none, none)) (fun _ => none))
        (recordingPool (List String) 3) ⟨true, false, 0⟩ []).1
      = PrunePlan.run ⟨"pod_prune", 3, 1, ["old"]⟩ := by
  have h := C6_prune_states
    (scriptedRuntime ([⟨"old"⟩], none) (fun _ => (none, none)) (fun _ => none))
    (recordingPool (List String) 3) ⟨true, false, 0⟩
    (fun p => if p.id = "old" then "Stopped" else "Created") [] ["by-status"] [⟨"old"⟩] rfl
    (by decide)
  exact h.2.2.2.2.trans rfl

/-- C7: when no pod is in one of the prune states, `PrunePods` returns an
empty list of IDs, an empty failure map and a nil error at once: it ends at
its early return, builds no pool, and the runtime is left in the state
`GetPodsByStatus` left it, whatever the pool functions are. -/
theorem C7_prune_nothing {σ π : Type} (rt : PodRuntime σ) (jp : JobPool σ π)
    (cli : PodPruneValues) (s s1 : σ)
    (hres : rt.GetPodsByStatus (pruneStates cli.Force) s = (([], none), s1)) :
    prunePlan rt jp cli s = (PrunePlan.done [] [] none, s1)
    ∧ PrunePods rt jp cli s = (([], [], none), s1) := by
  have hplan : prunePlan rt jp cli s = (PrunePlan.done [] [] none, s1) := by
    simp [prunePlan, hres]
  exact ⟨hplan, by simp [PrunePods, hplan]⟩

/-- Witness of C7: a prune on a runtime without candidates. -/
theorem C7_prune_nothing_witness :
    PrunePods (scriptedRuntime ([], none) (fun _ => (none, none)) (fun _ => none))
        (recordingPool (List String) 3) ⟨false, false, 0⟩ []
      = (([], [], none), ["by-status"]) :=
  (C7_prune_nothing (scriptedRuntime ([], none) (fun _ => (none, none)) (fun _ => none))
    (recordingPool (List String) 3) ⟨false, false, 0⟩ [] ["by-status"] rfl).2

/-- C8, as stated, fails: with the global flag `max-workers` set to 0,
`PrunePods` hands the worker limit 0 to the pool it builds for its one
candidate. -/
theorem C8_counterexample_zero_workers :
    (prunePlan (scriptedRuntime ([⟨"old"⟩], none) (fun _ => (none, none)) (fun _ => none))
        (recordingPool (List String) 3) ⟨false, true, 0⟩ []).1
      = PrunePlan.run ⟨"pod_prune", 0, 1, ["old"]⟩ := by
  rfl

/-- C8 (amended): for every non-empty candidate list, `PrunePods` builds one
pool, named `pod_prune`, with capacity the number of candidates and with
worker limit the caller's max-workers value when that global flag is set and
the default pool size for "rm" otherwise; it adds exactly one job per
candidate, in order, with that pod's ID, and returns what `Run` returns on
that pool. The worker limit is at least 1 whenever the value it is taken from
is: the flag's value is handed on as it is. -/
theorem C8_prune_pool {σ π : Type} (rt : PodRuntime σ) (jp : JobPool σ π)
    (cli : PodPruneValues) (s s1 : σ) (pods : List Pod)
    (hres : rt.GetPodsByStatus (pruneStates cli.Force) s = ((pods, none), s1))
    (hne : pods ≠ []) :
    (prunePlan rt jp cli s).1
      = PrunePlan.run ((pods.map (pruneJob rt cli)).foldl jp.Add
          (jp.NewPool "pod_prune" (pruneMaxWorkers jp cli) pods.length))
    ∧ PrunePods rt jp cli s
      = jp.Run ((pods.map (pruneJob rt cli)).foldl jp.Add
          (jp.NewPool "pod_prune" (pruneMaxWorkers jp cli) pods.length)) s1
    ∧ (pods.map (pruneJob rt cli)).map (fun j => j.ID) = pods.map (fun p => p.id)
    ∧ pruneMaxWorkers jp cli
      = (if cli.maxWorkersSet = true then cli.MaxWorks else jp.DefaultPoolSize "rm")
    ∧ ((if cli.maxWorkersSet = true then 1 ≤ cli.MaxWorks else 1 ≤ jp.DefaultPoolSize "rm")
        → 1 ≤ pruneMaxWorkers jp cli) := by
  have hlen : ¬ pods.length < 1 := by
    cases pods with
    | nil => exact absurd rfl hne
    | cons p ps => simp
  have hplan : prunePlan rt jp cli s
      = (PrunePlan.run ((pods.map (pruneJob rt cli)).foldl jp.Add
          (jp.NewPool "pod_prune" (pruneMaxWorkers jp cli) pods.length)), s1) := by
    simp only [prunePlan, hres, List.foldl_map, if_neg hlen]
  refine ⟨by rw [hplan], by simp [PrunePods, hplan], ?_, ?_, ?_⟩
  · simp [pruneJob, Function.comp_def]
  · simp [pruneMaxWorkers]
  · intro h
    cases hset : cli.maxWorkersSet <;> simp_all [pruneMaxWorkers]

/-- Witness of C8 (amended): two candidates, the flag set to 4. -/
theorem C8_prune_pool_witness :
    (prunePlan (scriptedRuntime ([⟨"a"⟩, ⟨"b"⟩], none) (fun _ => (none, none)) (fun _ => none))
        (recordingPool (List String) 3) ⟨false, true, 4⟩ []).1
      = PrunePlan.run ⟨"pod_prune", 4, 2, ["a", "b"]⟩ :=
  (C8_prune_pool (scriptedRuntime ([⟨"a"⟩, ⟨"b"⟩], none) (fun _ => (none, none)) (fun _ => none))
    (recordingPool (List String) 3) ⟨false, true, 4⟩ [] ["by-status"] [⟨"a"⟩, ⟨"b"⟩] rfl
    (by decide)).1.trans rfl

/-! ## Streaming replies -/

/-- A chunk carries no error. -/
theorem chunk_err (r : Reply) (h : r.isChunk = true) : r.err = none := by
  cases he : r.err <;> simp_all [Reply.isChunk]

/-- A chunk carries the flag `Continues`. -/
theorem chunk_flags (r : Reply) (h : r.isChunk = true) : ¬ (r.flags &&& Continues = 0) := by
  cases he : r.err <;> simp_all [Reply.isChunk]

/-- A reply that ends a loop without an error has the flag `Continues` clear. -/
theorem last_flags (r : Reply) (h : r.isLast = true) (he : r.err = none) :
    r.flags &&& Continues = 0 := by
  simp_all [Reply.isLast]

/-- The loop of `New` stops at the first reply that is no chunk. -/
theorem idReplyLoop_eq (last : Reply) (rest : List Reply) (hlast : last.isLast = true)
    (pre : List Reply) :
    ∀ (iid : String) (out : List String), (∀ r ∈ pre, r.isChunk = true) →
      idReplyLoop (pre ++ last :: rest) iid out
        = some (last.yield last.Id,
            ⟨rest, out ++ pre.flatMap (fun r => r.Logs) ++ last.printed⟩) := by
  induction pre with
  | nil =>
    intro iid out _
    cases he : last.err with
    | some err => simp [idReplyLoop, Reply.yield, Reply.printed, he]
    | none => simp [idReplyLoop, Reply.yield, Reply.printed, he, last_flags last hlast he]
  | cons r pre ih =>
    intro iid out hpre
    have hr := hpre r (List.mem_cons_self _ _)
    have hrest : ∀ x ∈ pre, x.isChunk = true := fun x hx => hpre x (List.mem_cons_of_mem _ hx)
    simp [idReplyLoop, chunk_err r hr, chunk_flags r hr, ih r.Id (out ++ r.Logs) hrest]

/-- The loop of `Push` stops at the first reply that is no chunk. -/
theorem logReplyLoop_eq (last : Reply) (rest : List Reply) (hlast : last.isLast = true)
    (pre : List Reply) :
    ∀ (out : List String), (∀ r ∈ pre, r.isChunk = true) →
      logReplyLoop (pre ++ last :: rest) out
        = some (last.yield (),
            ⟨rest, out ++ pre.flatMap (fun r => r.Logs) ++ last.printed⟩) := by
  induction pre with
  | nil =>
    intro out _
    cases he : last.err with
    | some err => simp [logReplyLoop, Reply.yield, Reply.printed, he]
    | none => simp [logReplyLoop, Reply.yield, Reply.printed, he, last_flags last hlast he]
  | cons r pre ih =>
    intro out hpre
    have hr := hpre r (List.mem_cons_self _ _)
    have hrest : ∀ x ∈ pre, x.isChunk = true := fun x hx => hpre x (List.mem_cons_of_mem _ hx)
    simp [logReplyLoop, chunk_err r hr, chunk_flags r hr, ih (out ++ r.Logs) hrest]

/-- The loop of `SaveImage` stops at the first reply that is no chunk. -/
theorem saveReplyLoop_eq (last : Reply) (rest : List Reply) (hlast : last.isLast = true)
    (pre : List Reply) :
    ∀ (fetchfile : String) (out : List String), (∀ r ∈ pre, r.isChunk = true) →
      saveReplyLoop (pre ++ last :: rest) fetchfile out
        = some (last.yield (lastNonEmptyId fetchfile (pre ++ [last])),
            ⟨rest, out ++ pre.flatMap (fun r => r.Logs) ++ last.printed⟩) := by
  induction pre with
  | nil =>
    intro fetchfile out _
    cases he : last.err with
    | some err => simp [saveReplyLoop, Reply.yield, Reply.printed, he]
    | none =>
      simp [saveReplyLoop, Reply.yield, Reply.printed, he, last_flags last hlast he,
        lastNonEmptyId]
  | cons r pre ih =>
    intro fetchfile out hpre
    have hr := hpre r (List.mem_cons_self _ _)
    have hrest : ∀ x ∈ pre, x.isChunk = true := fun x hx => hpre x (List.mem_cons_of_mem _ hx)
    simp [saveReplyLoop, chunk_err r hr, chunk_flags r hr,
      ih (if r.Id.length > 0 then r.Id else fetchfile) (out ++ r.Logs) hrest, lastNonEmptyId]

/-- C9, as stated, fails for `SaveImage`: of two replies, the first with the
`Id` "img.tar" and the flag `Continues`, the second final with an empty `Id`,
the loop reads both and goes on with "img.tar", which is not the `Id` of the
last reply read. -/
theorem C9_counterexample_save_image :
    SaveImageFetchfile (.ok [⟨[], "img.tar", 1, none⟩, ⟨[], "", 0, none⟩]) []
      = some (.ok "img.tar", ⟨[], []⟩)
    ∧ (⟨[], "", 0, none⟩ : Reply).Id ≠ "img.tar" :=
  ⟨rfl, by decide⟩

/-- C9 (amended): for replies `pre ++ last :: rest`, where every reply of
`pre` carries the flag `Continues` and no error and `last` is the first reply
that carries an error or has the flag clear, each of the six loops returns
after reading `last`, whatever its payload, and leaves `rest` unread; it has
printed the `Logs` of the replies of `pre` and, unless `last` carries an
error, of `last`. On an error of `last` that error is returned. Otherwise
`New`, `LoadFromArchiveReference` and `LoadImage` use the `Id` of `last`,
`Push` and `Build` return nil, and `SaveImage` uses the last `Id` that is not
empty among the replies read. -/
theorem C9_reply_loops_stop {α : Type} (pre rest : List Reply) (last : Reply)
    (newImageFromLocal : String → Except GoError α) (out : List String)
    (hpre : ∀ r ∈ pre, r.isChunk = true) (hlast : last.isLast = true) :
    New none (.ok (pre ++ last :: rest)) newImageFromLocal out
      = some ((last.yield last.Id).bind newImageFromLocal,
          ⟨rest, out ++ pre.flatMap (fun r => r.Logs) ++ last.printed⟩)
    ∧ LoadFromArchiveReference (.ok (pre ++ last :: rest)) newImageFromLocal out
      = some (((last.yield last.Id).bind newImageFromLocal).map (fun img => [img]),
          ⟨rest, out ++ pre.flatMap (fun r => r.Logs) ++ last.printed⟩)
    ∧ LoadImageReplies (.ok (pre ++ last :: rest)) out
      = some (last.yield last.Id,
          ⟨rest, out ++ pre.flatMap (fun r => r.Logs) ++ last.printed⟩)
    ∧ Push (.ok (pre ++ last :: rest)) out
      = some (last.err, ⟨rest, out ++ pre.flatMap (fun r => r.Logs) ++ last.printed⟩)
    ∧ Build (.ok (pre ++ last :: rest)) out
      = some (last.err, ⟨rest, out ++ pre.flatMap (fun r => r.Logs) ++ last.printed⟩)
    ∧ SaveImageFetchfile (.ok (pre ++ last :: rest)) out
      = some (last.yield (lastNonEmptyId "" (pre ++ [last])),
          ⟨rest, out ++ pre.flatMap (fun r => r.Logs) ++ last.printed⟩) := by
  have hid := idReplyLoop_eq last rest hlast pre "" out hpre
  have hlog := logReplyLoop_eq last rest hlast pre out hpre
  have hsave := saveReplyLoop_eq last rest hlast pre "" out hpre
  refine ⟨?_, ?_, ?_, ?_, ?_, ?_⟩
  · simp only [New, hid]
    cases he : last.err <;> simp [Reply.yield, he, Except.bind]
  · simp only [LoadFromArchiveReference, hid]
    cases he : last.err with
    | some err => simp [Reply.yield, he, Except.bind, Except.map]
    | none =>
      simp only [Reply.yield, he, Except.bind]
      cases newImageFromLocal last.Id <;> simp [Except.map]
  · simp only [LoadImageReplies, hid]
  · simp only [Push, hlog]
    cases he : last.err <;> simp [Reply.yield, he]
  · simp only [Build, hlog]
    cases he : last.err <;> simp [Reply.yield, he]
  · simp only [SaveImageFetchfile, hsave]

/-- Witness of C9 (amended): a pull in two chunks and a final reply, with one
reply left unread behind it. -/
theorem C9_reply_loops_stop_witness :
    New none
        (.ok ([⟨["a"], "", 1, none⟩, ⟨["b"], "", 1, none⟩]
          ++ ⟨["c"], "sha", 0, none⟩ :: [⟨["late"], "x", 0, none⟩]))
        (fun iid => Except.ok iid) []
      = some (.ok "sha", ⟨[⟨["late"], "x", 0, none⟩], ["a", "b", "c"]⟩) :=
  (C9_reply_loops_stop [⟨["a"], "", 1, none⟩, ⟨["b"], "", 1, none⟩] [⟨["late"], "x", 0, none⟩]
    ⟨["c"], "sha", 0, none⟩ (fun iid => Except.ok iid) [] (by decide) (by decide)).1

/-- C10, as stated, fails: for three chunks with the flag `Continues` and a
final reply, `Push` prints the `Logs` of all four replies, the final one
included, before it returns nil. -/
theorem C10_counterexample_four_payloads :
    Push (.ok [⟨["a"], "", 1, none⟩, ⟨["b"], "", 1, none⟩, ⟨["c"], "", 1, none⟩,
        ⟨["d"], "", 0, none⟩]) []
      = some (none, ⟨[], ["a", "b", "c", "d"]⟩) := by
  decide

/-- C10 (amended): for three chunks that carry the flag `Continues` followed
by one final reply without it, none with an error, `Push` reads the four
replies, prints the `Logs` of the three chunks and then those of the final
reply, and returns nil; exactly the three chunks are printed when the final
reply has no `Logs`. -/
theorem C10_push_three_chunks (c1 c2 c3 final : Reply) (out : List String)
    (h1 : c1.isChunk = true) (h2 : c2.isChunk = true) (h3 : c3.isChunk = true)
    (hfinal : final.flags &&& Continues = 0) (herr : final.err = none) :
    Push (.ok [c1, c2, c3, final]) out
      = some (none, ⟨[], out ++ c1.Logs ++ c2.Logs ++ c3.Logs ++ final.Logs⟩)
    ∧ (final.Logs = [] →
        Push (.ok [c1, c2, c3, final]) out
          = some (none, ⟨[], out ++ c1.Logs ++ c2.Logs ++ c3.Logs⟩)) := by
  have hlast : final.isLast = true := by simp [Reply.isLast, hfinal]
  have hpre : ∀ r ∈ [c1, c2, c3], r.isChunk = true := by
    intro r hr
    simp only [List.mem_cons, List.mem_singleton, List.not_mem_nil, or_false] at hr
    rcases hr with rfl | rfl | rfl <;> assumption
  have hlog := logReplyLoop_eq final [] hlast [c1, c2, c3] out hpre
  have hpush : Push (.ok [c1, c2, c3, final]) out
      = some (none, ⟨[], out ++ c1.Logs ++ c2.Logs ++ c3.Logs ++ final.Logs⟩) := by
    have hl : [c1, c2, c3, final] = [c1, c2, c3] ++ final :: [] := rfl
    rw [hl]
    simp only [Push, hlog]
    simp [Reply.yield, Reply.printed, herr, List.flatMap_cons, List.append_assoc]
  refine ⟨hpush, fun hnil => ?_⟩
  rw [hpush, hnil, List.append_nil]

/-- Witness of C10 (amended): three chunks and a final reply without logs. -/
theorem C10_push_three_chunks_witness :
    Push (.ok [⟨["a"], "", 1, none⟩, ⟨["b"], "", 1, none⟩, ⟨["c"], "", 1, none⟩,
        ⟨[], "", 0, none⟩]) []
      = some (none, ⟨[], ["a", "b", "c"]⟩) :=
  (C10_push_three_chunks ⟨["a"], "", 1, none⟩ ⟨["b"], "", 1, none⟩ ⟨["c"], "", 1, none⟩
    ⟨[], "", 0, none⟩ [] (by decide) (by decide) (by decide) (by decide) rfl).2 rfl

/-! ## Events -/

/-- When the loop of `Events` goes through the replies `pre` without
stopping, it goes on with the replies behind them. -/
theorem eventsLoop_through {σ T K S Tm : Type} (env : EventsEnv σ T K S Tm) (c : EventValues)
    (tmpl : Option Tm) (rs : List EventReply) (pre : List EventReply) :
    ∀ (s s' : σ), eventsThrough env c tmpl pre s = some s' →
      eventsLoop env c tmpl (pre ++ rs) s = eventsLoop env c tmpl rs s' := by
  induction pre with
  | nil => intro s s' h; simp [eventsThrough] at h; simp [h]
  | cons r pre ih =>
    intro s s' h
    simp only [eventsThrough] at h
    simp only [List.cons_append, eventsLoop]
    cases hstep : eventsStep env c tmpl r s with
    | stop err s1 => simp [hstep] at h
    | next s1 =>
      simp only [hstep] at h
      exact ih s1 s' h

/-- A blank record stops the loop without an error and without a write. -/
theorem eventsStep_blank {σ T K S Tm : Type} (env : EventsEnv σ T K S Tm) (c : EventValues)
    (tmpl : Option Tm) (ev : WireEvent) (flags : Nat) (s : σ) (h : ev.isBlank = true) :
    eventsStep env c tmpl (.ok (ev, flags)) s = .stop none s := by
  simp [eventsStep, h]

/-- A record that parses and is written stops the loop without an error when
its flag `Continues` is clear, and lets it go on otherwise. -/
theorem eventsStep_written {σ T K S Tm : Type} (env : EventsEnv σ T K S Tm) (c : EventValues)
    (tmpl : Option Tm) (ev : WireEvent) (flags : Nat) (s s1 : σ) (eTime : T) (eType : K)
    (eStatus : S) (hnot : ev.isBlank = false) (htime : env.timeParse ev.Time = .ok eTime)
    (htype : env.StringToType ev.Typ = .ok eType)
    (hstatus : env.StringToStatus ev.Status = .ok eStatus)
    (hwrite : writeEvent env c tmpl ⟨ev.Id, ev.Image, ev.Name, eStatus, eTime, eType⟩ s
      = (none, s1)) :
    eventsStep env c tmpl (.ok (ev, flags)) s
      = if flags &&& Continues = 0 then .stop none s1 else .next s1 := by
  simp [eventsStep, hnot, htime, htype, hstatus, hwrite]

/-- C11: in `Events`, a reply whose time, status and type are all empty ends
the stream: when the loop reaches it after the replies `pre`, it returns nil,
writes nothing for the record (the writer is in the state the replies of
`pre` left) and leaves the replies behind it unread, whatever its flags. In
particular, for three records of which the first is an event that parses and
is written and the second is blank, `Events` returns nil and the writer is in
the state the one write of the first event left; the third reply is not
read. -/
theorem C11_events_blank_record {σ T K S Tm : Type} (env : EventsEnv σ T K S Tm)
    (c : EventValues) (tmpl : Option Tm) (pre rest : List EventReply) (ev : WireEvent)
    (flags : Nat) (s s' : σ)
    (htmpl : eventsTemplate env c = .ok tmpl)
    (hblank : ev.Time = "" ∧ ev.Status = "" ∧ ev.Typ = "")
    (hpre : eventsThrough env c tmpl pre s = some s') :
    Events env c (.ok (pre ++ .ok (ev, flags) :: rest)) s = some (none, rest, s')
    ∧ (∀ (first : WireEvent) (f1 : Nat) (third : EventReply) (eTime : T) (eType : K)
        (eStatus : S) (s1 : σ),
        first.isBlank = false →
        env.timeParse first.Time = .ok eTime →
        env.StringToType first.Typ = .ok eType →
        env.StringToStatus first.Status = .ok eStatus →
        writeEvent env c tmpl ⟨first.Id, first.Image, first.Name, eStatus, eTime, eType⟩ s
          = (none, s1) →
        Events env c (.ok [.ok (first, f1), .ok (ev, flags), third]) s
          = some (none, if f1 &&& Continues = 0 then [.ok (ev, flags), third] else [third], s1)) := by
  have hb : ev.isBlank = true := by simp [WireEvent.isBlank, hblank.1, hblank.2.1, hblank.2.2]
  constructor
  · simp only [Events, htmpl]
    rw [eventsLoop_through env c tmpl _ pre s s' hpre]
    simp [eventsLoop, eventsStep_blank env c tmpl ev flags s' hb]
  · intro first f1 third eTime eType eStatus s1 hnot htime htype hstatus hwrite
    have hstep := eventsStep_written env c tmpl first f1 s s1 eTime eType eStatus hnot htime
      htype hstatus hwrite
    simp only [Events, htmpl, eventsLoop, hstep]
    by_cases hf : f1 &&& Continues = 0
    · simp [hf]
    · simp [hf, eventsStep_blank env c tmpl ev flags s1 hb]

/-- Witness of C11: three records, the second blank with the flag `Continues`
set; one event is written, the third record stays unread. -/
theorem C11_events_blank_record_witness :
    Events lineEvents ⟨true, "json", [], "", ""⟩
        (.ok [.ok (⟨"e1", "", "", "start", "t1", "container"⟩, 1),
          .ok (⟨"", "", "", "", "", ""⟩, 1),
          .ok (⟨"e3", "", "", "start", "t3", "container"⟩, 0)]) []
      = some (none, [.ok (⟨"e3", "", "", "start", "t3", "container"⟩, 0)], ["e1", "\n"]) :=
  (C11_events_blank_record lineEvents ⟨true, "json", [], "", ""⟩ none
    [.ok (⟨"e1", "", "", "start", "t1", "container"⟩, 1)]
    [.ok (⟨"e3", "", "", "start", "t3", "container"⟩, 0)] ⟨"", "", "", "", "", ""⟩ 1 []
    ["e1", "\n"] rfl ⟨rfl, rfl, rfl⟩ rfl).1

/-- C12: in `Events`, a record that is not blank and whose time does not
parse, or whose type or status is rejected, is never skipped: when the loop
reaches it after the replies `pre`, `Events` returns an error that is not nil,
writes nothing for the record and leaves the replies behind it unread. -/
theorem C12_events_bad_record {σ T K S Tm : Type} (env : EventsEnv σ T K S Tm)
    (c : EventValues) (tmpl : Option Tm) (pre rest : List EventReply) (ev : WireEvent)
    (flags : Nat) (s s' : σ)
    (htmpl : eventsTemplate env c = .ok tmpl)
    (hnot : ev.isBlank = false)
    (hbad : (∃ e, env.timeParse ev.Time = .error e) ∨ (∃ e, env.StringToType ev.Typ = .error e)
      ∨ (∃ e, env.StringToStatus ev.Status = .error e))
    (hpre : eventsThrough env c tmpl pre s = some s') :
    ∃ err : GoError,
      Events env c (.ok (pre ++ .ok (ev, flags) :: rest)) s = some (some err, rest, s') := by
  have hstop : ∃ err : GoError, eventsStep env c tmpl (.ok (ev, flags)) s' = .stop (some err) s' := by
    cases htime : env.timeParse ev.Time with
    | error e =>
      exact ⟨.wrapped ("unable to parse time of event " ++ ev.Time) e,
        by simp [eventsStep, hnot, htime]⟩
    | ok eTime =>
      cases htype : env.StringToType ev.Typ with
      | error e => exact ⟨e, by simp [eventsStep, hnot, htime, htype]⟩
      | ok eType =>
        cases hstatus : env.StringToStatus ev.Status with
        | error e => exact ⟨e, by simp [eventsStep, hnot, htime, htype, hstatus]⟩
        | ok eStatus =>
          rcases hbad with ⟨e, he⟩ | ⟨e, he⟩ | ⟨e, he⟩
          · rw [htime] at he; cases he
          · rw [htype] at he; cases he
          · rw [hstatus] at he; cases he
  rcases hstop with ⟨err, herr⟩
  refine ⟨err, ?_⟩
  simp only [Events, htmpl]
  rw [eventsLoop_through env c tmpl _ pre s s' hpre]
  simp [eventsLoop, herr]

/-- Witness of C12: the second record has a type that is rejected. -/
theorem C12_events_bad_record_witness :
    ∃ err : GoError,
      Events lineEvents ⟨true, "json", [], "", ""⟩
          (.ok ([.ok (⟨"e1", "", "", "start", "t1", "container"⟩, 1)]
            ++ .ok (⟨"e2", "", "", "start", "t2", "bad"⟩, 1)
              :: [.ok (⟨"e3", "", "", "start", "t3", "container"⟩, 0)])) []
        = some (some err, [.ok (⟨"e3", "", "", "start", "t3", "container"⟩, 0)], ["e1", "\n"]) :=
  C12_events_bad_record lineEvents ⟨true, "json", [], "", ""⟩ none
    [.ok (⟨"e1", "", "", "start", "t1", "container"⟩, 1)]
    [.ok (⟨"e3", "", "", "start", "t3", "container"⟩, 0)] ⟨"e2", "", "", "start", "t2", "bad"⟩ 1 []
    ["e1", "\n"] rfl rfl (Or.inr (Or.inl ⟨_, rfl⟩)) rfl

/-! ## File transfer -/

/-- Reading up to the first `:` of an acknowledgment: the bytes before it and
the `:` are read, the bytes behind it are left. -/
theorem readString_colon (ack rest : List Byte) (hack : ∀ b ∈ ack, b ≠ colon) :
    readString colon (ack ++ colon :: rest) = (ack ++ [colon], rest, none) := by
  induction ack with
  | nil => simp [readString]
  | cons b ack ih =>
    have hb : b ≠ colon := hack b (List.mem_cons_self _ _)
    have hrest : ∀ x ∈ ack, x ≠ colon := fun x hx => hack x (List.mem_cons_of_mem _ hx)
    simp [readString, hb, ih hrest]

/-- Removing every `:` from an acknowledgment that ends in its only `:`
leaves the bytes before it. -/
theorem removeAll_colon (ack : List Byte) (hack : ∀ b ∈ ack, b ≠ colon) :
    removeAll colon (ack ++ [colon]) = ack := by
  simp only [removeAll, List.filter_append]
  have h1 : ack.filter (fun b => decide (b ≠ colon)) = ack :=
    List.filter_eq_self.mpr (fun b hb => by simpa using hack b hb)
  rw [h1]
  simp

/-- Whenever the source file is opened and its size is read,
`SendFileOverVarlink` issues the call `SendFile` with the length of the file,
on the connection the runtime has or on one it has given up since. -/
theorem sendFile_declares_size (faults : TransferFaults) (file : List Byte) (r : RemoteRuntime)
    (hopen : faults.openFile = none) (hstat : faults.stat = none) :
    VarlinkCall.SendFile "" file.length ∈
      (SendFileOverVarlink faults file r).2.Conn.calls
        ++ (SendFileOverVarlink faults file r).2.closed.flatMap (fun c => c.calls) := by
  unfold SendFileOverVarlink
  simp only [hopen, hstat]
  cases faults.send <;> cases faults.reply <;> cases faults.writeTo <;> simp
  rcases hrd : readString colon r.Conn.reader with ⟨line, rest, e⟩
  cases e <;> cases hf : faults.refresh <;> simp [RefreshConnection]
  exact ⟨_, Or.inr rfl, by simp⟩

/-- C13, as stated, fails: for the declared length -1 and a stream of three
bytes, `GetFileFromRemoteHost` copies no byte and returns nil, so it returns
nil after copying a number of bytes that is not the declared length. And for
the declared length 3 and a stream of three bytes, when the deferred flush of
the writer fails with one byte in the file, it returns nil although the file
does not hold the three bytes. -/
theorem C13_counterexample_negative_length :
    (GetFileFromRemoteHost noFaults (-1) "/tmp/export" true ⟨⟨false, [], [1, 2, 3], []⟩, []⟩).err
      = none
    ∧ (GetFileFromRemoteHost noFaults (-1) "/tmp/export" true
        ⟨⟨false, [], [1, 2, 3], []⟩, []⟩).output = some []
    ∧ (([] : List Byte).length : Int) ≠ -1
    ∧ (GetFileFromRemoteHost { noFaults with flush := some 1 } 3 "/tmp/export" true
        ⟨⟨false, [], [1, 2, 3], []⟩, []⟩).err = none
    ∧ (GetFileFromRemoteHost { noFaults with flush := some 1 } 3 "/tmp/export" true
        ⟨⟨false, [], [1, 2, 3], []⟩, []⟩).output = some [1] := by
  decide

/-- C13 (amended): when the file is created, the call and its reply succeed
and no write to the output file fails, neither during the copy nor in the
deferred flush, then for every declared length `L ≥ 0` and every raw stream,
`GetFileFromRemoteHost` writes exactly the first `L` bytes of the stream to
the destination and returns nil when the stream holds at least `L` bytes, and
returns a "file transfer failed" error (having written the bytes there were)
when it holds fewer; it returns nil only after copying `L` bytes. For a
negative `L` it copies nothing and returns nil. Whatever the writer does
during the copy, an error of it is returned as a "file transfer failed"
error. -/
theorem C13_receive_file (faults : TransferFaults) (L : Int) (remoteFilePath : String)
    (delete : Bool) (r : RemoteRuntime)
    (hcreate : faults.create = none) (hsend : faults.send = none)
    (hreply : faults.reply = none) (hflush : faults.flush = none) :
    (faults.fileWrite = none → 0 ≤ L →
      (L ≤ r.Conn.reader.length →
        (GetFileFromRemoteHost faults L remoteFilePath delete r).err = none
        ∧ (GetFileFromRemoteHost faults L remoteFilePath delete r).output
          = some (r.Conn.reader.take L.toNat)
        ∧ (GetFileFromRemoteHost faults L remoteFilePath delete r).runtime.Conn.reader
          = r.Conn.reader.drop L.toNat)
      ∧ ((r.Conn.reader.length : Int) < L →
        (GetFileFromRemoteHost faults L remoteFilePath delete r).err
          = some (.wrapped "file transfer failed" EOF)
        ∧ (GetFileFromRemoteHost faults L remoteFilePath delete r).output
          = some r.Conn.reader))
    ∧ (0 ≤ L → (GetFileFromRemoteHost faults L remoteFilePath delete r).err = none →
        ∃ written, (GetFileFromRemoteHost faults L remoteFilePath delete r).output = some written
          ∧ (written.length : Int) = L)
    ∧ (L < 0 →
      (GetFileFromRemoteHost faults L remoteFilePath delete r).err = none
      ∧ (GetFileFromRemoteHost faults L remoteFilePath delete r).output = some [])
    ∧ (∀ taken werr, faults.fileWrite = some (taken, werr) → 0 < L →
        (taken : Int) < L → taken < r.Conn.reader.length →
        (GetFileFromRemoteHost faults L remoteFilePath delete r).err
          = some (.wrapped "file transfer failed" werr)) := by
  have hnofault : faults.fileWrite = none → ¬ L ≤ 0 →
      ioCopyN faults.fileWrite r.Conn.reader L
        = (if (r.Conn.reader.length : Int) < L then (r.Conn.reader, [], some EOF)
           else (r.Conn.reader.take L.toNat, r.Conn.reader.drop L.toNat, none)) := by
    intro hw hpos
    simp [ioCopyN, hw, hpos]
  have hget : ∀ res, ioCopyN faults.fileWrite r.Conn.reader L = res →
      GetFileFromRemoteHost faults L remoteFilePath delete r
        = (match res with
          | (written, rest, some err) =>
            ⟨some (.wrapped "file transfer failed" err), some written,
              { Conn := { upgraded := true,
                          calls := r.Conn.calls ++ [.ReceiveFile remoteFilePath delete],
                          reader := rest, writer := r.Conn.writer },
                closed := r.closed }⟩
          | (written, rest, none) =>
            ⟨none, some written,
              { Conn := { upgraded := true,
                          calls := r.Conn.calls ++ [.ReceiveFile remoteFilePath delete],
                          reader := rest, writer := r.Conn.writer },
                closed := r.closed }⟩) := by
    intro res hres
    rcases res with ⟨written, rest, e⟩
    cases e <;> simp [GetFileFromRemoteHost, hcreate, hsend, hreply, hflush, hres, afterFlush]
  refine ⟨fun hw hL => ⟨fun hle => ?_, fun hshort => ?_⟩, fun hL herr => ?_, fun hneg => ?_,
    fun taken werr hw hpos htaken hlen => ?_⟩
  · by_cases hzero : L ≤ 0
    · have hL0 : L = 0 := le_antisymm hzero hL
      subst hL0
      rw [hget _ rfl]
      simp [ioCopyN]
    · have hlt : ¬ (r.Conn.reader.length : Int) < L := not_lt.mpr hle
      rw [hget _ (hnofault hw hzero)]
      simp [hlt]
  · have hzero : ¬ L ≤ 0 := by omega
    rw [hget _ (hnofault hw hzero)]
    simp [hshort]
  · by_cases hzero : L ≤ 0
    · have hL0 : L = 0 := le_antisymm hzero hL
      subst hL0
      rw [hget _ rfl]
      simp [ioCopyN]
    · cases hw : faults.fileWrite with
      | none =>
        by_cases hshort : (r.Conn.reader.length : Int) < L
        · rw [hget _ (hnofault hw hzero)] at herr
          simp [hshort] at herr
        · rw [hget _ (hnofault hw hzero)]
          have hnat : L.toNat ≤ r.Conn.reader.length := by omega
          simp only [hshort, if_false]
          refine ⟨_, rfl, ?_⟩
          rw [List.length_take, Nat.min_eq_left hnat]
          omega
      | some fault =>
        rcases fault with ⟨taken, werr⟩
        by_cases hfail : taken < (r.Conn.reader.take L.toNat).length
        · have hres : ioCopyN faults.fileWrite r.Conn.reader L
              = (r.Conn.reader.take taken, r.Conn.reader.drop taken, some werr) := by
            simp only [ioCopyN, hw, hzero, if_false, hfail, if_true]
          rw [hget _ hres] at herr
          simp at herr
        · have hres : ioCopyN faults.fileWrite r.Conn.reader L
              = (if (r.Conn.reader.length : Int) < L then (r.Conn.reader, [], some EOF)
                 else (r.Conn.reader.take L.toNat, r.Conn.reader.drop L.toNat, none)) := by
            simp only [ioCopyN, hw, hzero, if_false, hfail]
          by_cases hshort : (r.Conn.reader.length : Int) < L
          · rw [hget _ hres] at herr
            simp [hshort] at herr
          · rw [hget _ hres]
            have hnat : L.toNat ≤ r.Conn.reader.length := by omega
            simp only [hshort, if_false]
            refine ⟨_, rfl, ?_⟩
            rw [List.length_take, Nat.min_eq_left hnat]
            omega
  · have hzero : L ≤ 0 := le_of_lt hneg
    rw [hget _ rfl]
    simp [ioCopyN, hzero]
  · have hzero : ¬ L ≤ 0 := by omega
    have hfail : taken < (r.Conn.reader.take L.toNat).length := by
      rw [List.length_take]
      omega
    have hres : ioCopyN faults.fileWrite r.Conn.reader L
        = (r.Conn.reader.take taken, r.Conn.reader.drop taken, some werr) := by
      simp only [ioCopyN, hw, hzero, if_false, hfail, if_true]
    rw [hget _ hres]

/-- Witness of C13 (amended): a declared length of 2 on a stream of three
bytes. -/
theorem C13_receive_file_witness :
    (GetFileFromRemoteHost noFaults 2 "/tmp/export" true ⟨⟨false, [], [7, 8, 9], []⟩, []⟩).err
      = none
    ∧ (GetFileFromRemoteHost noFaults 2 "/tmp/export" true
        ⟨⟨false, [], [7, 8, 9], []⟩, []⟩).output = some [7, 8] := by
  have h := (C13_receive_file noFaults 2 "/tmp/export" true ⟨⟨false, [], [7, 8, 9], []⟩, []⟩
    rfl rfl rfl rfl).1 rfl (by decide)
  have h2 := h.1 (by decide)
  exact ⟨h2.1, h2.2.1⟩

/-- C14: when no call fails and the peer sends an acknowledgment `ack`
without `:`, then a `:`, `SendFileOverVarlink` issues the call `SendFile` with
the length of the file (0 for an empty file), writes exactly the bytes of the
file to the raw channel, reads the acknowledgment up to and including the
`:`, and returns it with every `:` removed, which is `ack`, and no error.
Whatever fails after the file is opened and its size read, the length
declared is the length of the file. -/
theorem C14_send_file (file ack rest : List Byte) (r : RemoteRuntime)
    (hack : ∀ b ∈ ack, b ≠ colon) (hreader : r.Conn.reader = ack ++ colon :: rest) :
    SendFileOverVarlink noFaults file r
      = ((ack, none),
          { Conn := ⟨false, [], [], []⟩,
            closed := r.closed ++
              [⟨true, r.Conn.calls ++ [.SendFile "" file.length], rest, r.Conn.writer ++ file⟩] })
    ∧ readString colon r.Conn.reader = (ack ++ [colon], rest, none)
    ∧ removeAll colon (ack ++ [colon]) = ack
    ∧ (∀ faults : TransferFaults, faults.openFile = none → faults.stat = none →
        VarlinkCall.SendFile "" file.length ∈
          (SendFileOverVarlink faults file r).2.Conn.calls
            ++ (SendFileOverVarlink faults file r).2.closed.flatMap (fun c => c.calls)) := by
  have hread := readString_colon ack rest hack
  have hrem := removeAll_colon ack hack
  refine ⟨?_, by rw [hreader, hread], hrem,
    fun faults hopen hstat => sendFile_declares_size faults file r hopen hstat⟩
  simp [SendFileOverVarlink, noFaults, hreader, hread, hrem, RefreshConnection]

/-- Witness of C14: an empty file, acknowledged with the name `AB`. -/
theorem C14_send_file_witness :
    SendFileOverVarlink noFaults [] ⟨⟨false, [], [65, 66, 58], []⟩, []⟩
      = (([65, 66], none),
          { Conn := ⟨false, [], [], []⟩,
            closed := [⟨true, [.SendFile "" 0], [], []⟩] }) :=
  (C14_send_file [] [65, 66] [] ⟨⟨false, [], [65, 66, 58], []⟩, []⟩ (by decide) rfl).1

/-- C15 fails on the code: after a completed transfer of three bytes,
`GetFileFromRemoteHost`, and `Export` through it, return nil with the
runtime still on the connection that was upgraded to raw mode: no connection
has been given up. `SendFileOverVarlink` returns with a new connection. -/
theorem C15_receive_leaves_upgraded_connection :
    GetFileFromRemoteHost noFaults 3 "/tmp/export" true ⟨⟨false, [], [1, 2, 3], []⟩, []⟩
      = ⟨none, some [1, 2, 3], ⟨⟨true, [.ReceiveFile "/tmp/export" true], [], []⟩, []⟩⟩
    ∧ Export noFaults (.ok "/tmp/export") 3 "ctr" ⟨⟨false, [], [1, 2, 3], []⟩, []⟩
      = ⟨none, some [1, 2, 3],
          ⟨⟨true, [.ExportContainer "ctr" "", .ReceiveFile "/tmp/export" true], [], []⟩, []⟩⟩
    ∧ (SendFileOverVarlink noFaults [1, 2, 3] ⟨⟨false, [], [65, 58], []⟩, []⟩).2
      = ⟨⟨false, [], [], []⟩, [⟨true, [.SendFile "" 3], [], [1, 2, 3]⟩]⟩ := by
  decide

/-- C16 fails on the code: when the input file cannot be opened,
`SendFileOverVarlink` returns an error and `LoadImage` returns the empty name
with a nil error; no call `LoadImage` is issued. -/
theorem C16_load_image_swallows_send_failure :
    (SendFileOverVarlink ⟨none, some (.sentinel "no such file"), none, none, none, none, none, none, none⟩
        [] ⟨⟨false, [], [], []⟩, []⟩).1
      = ([], some (.sentinel "no such file"))
    ∧ LoadImage ⟨none, some (.sentinel "no such file"), none, none, none, none, none, none, none⟩ []
        "image" false (.ok [⟨[], "sha", 0, none⟩]) [] ⟨⟨false, [], [], []⟩, []⟩
      = some (("", none), ⟨[], []⟩, ⟨⟨false, [], [], []⟩, []⟩) := by
  decide

/-! ## The selectors of `volume rm` and `volume inspect` -/

/-- C17: for every argument list and every value of `--all`, `volume rm` and
`volume inspect` return their usage error, with the engine not called (the
state is untouched), when `all` is set and a name is given or `all` is not
set and no name is given; in every other case they go on to call the engine.
The condition is the same for the two commands. -/
theorem C17_volume_selectors {σ ρ Tm : Type} (cli : VolumeCli σ ρ Tm)
    (rmOptions : VolumeRmOptions) (inspectOpts : VolumeInspectOptions) (inspectFormat : String)
    (args : List String) (s : σ) :
    rm cli rmOptions args s
      = (if (rmOptions.All = true ∧ 0 < args.length) ∨ (rmOptions.All = false ∧ args.length = 0)
          then (some (.sentinel "choose either one or more volumes or all"), s)
          else rmEngine cli rmOptions args s)
    ∧ inspect cli inspectOpts inspectFormat args s
      = (if (inspectOpts.All = true ∧ 0 < args.length)
            ∨ (inspectOpts.All = false ∧ args.length = 0)
          then (some (.sentinel "provide one or more volume names or use --all"), s)
          else inspectEngine cli inspectOpts inspectFormat args s) := by
  constructor
  · cases hall : rmOptions.All <;> cases args <;> simp [rm, hall]
  · cases hall : inspectOpts.All <;> cases args <;> simp [inspect, hall]

/-! ## The compat container handlers -/

/-- What `KillContainer` writes once `Kill` has been called: calls of
`utils.Error` with the status 500 and a call of `WriteResponse` with 204. -/
theorem afterKill_responses {σ κ : Type} (rt : CtrRuntime σ κ)
    (r : HttpRequest (Option String)) (con : κ) (killed : Option GoError × σ) :
    ∀ resp ∈ (afterKill rt r con killed).1,
      (∃ msg err, resp = .Error msg StatusInternalServerError err)
      ∨ resp = .WriteResponse StatusNoContent "" := by
  intro resp hresp
  rcases killed with ⟨kerr, s1⟩
  unfold afterKill at hresp
  cases hlib : r.isLibpod <;> cases kerr <;> simp only [hlib] at hresp
  all_goals first
    | (simp at hresp; subst hresp; exact Or.inr rfl)
    | (simp at hresp; rcases hresp with h | h <;> subst h
       · exact Or.inl ⟨_, _, rfl⟩
       · exact Or.inr rfl)
    | (rcases hw : rt.Wait con s1 with ⟨w, s2⟩
       cases w <;> simp [hw] at hresp
       all_goals first
         | (subst hresp; first | exact Or.inr rfl | exact Or.inl ⟨_, _, rfl⟩)
         | (rcases hresp with h | h <;> subst h <;>
             first | exact Or.inr rfl | exact Or.inl ⟨_, _, rfl⟩))

/-- C18: for a request that decodes, a signal that parses and a container
that is found and whose state is read, `KillContainer` answers with the
status 409 Conflict, and does not call `Kill` (the runtime is in the state
`State` left), if and only if the state is Stopped or Exited; for every other state it calls
`con.Kill` with the parsed signal, which is the one of "KILL" when no signal
parameter is given, and answers with what follows that call. -/
theorem C18_kill_conflict {σ κ : Type} (rt : CtrRuntime σ κ) (r : HttpRequest (Option String))
    (s s1 s2 : σ) (param : Option String) (sig : Int) (con : κ) (state : ContainerStatus)
    (hquery : r.query = .ok param)
    (hsig : rt.ParseSignalNameOrNumber (param.getD "KILL") = .ok sig)
    (hlookup : rt.LookupContainer r.name s = (.ok con, s1))
    (hstate : rt.State con s1 = (.ok state, s2)) :
    KillContainer rt r s
      = (if state = ContainerStateStopped ∨ state = ContainerStateExited then
          ([.Error ("Container " ++ r.name ++ " is not running") 409
              (.sentinel ("Cannot kill Container " ++ r.name ++ ", it is not running"))], s2)
        else afterKill rt r con (rt.Kill con (toUint sig) s2))
    ∧ ((∃ msg err, Response.Error msg StatusConflict err ∈ (KillContainer rt r s).1)
        ↔ (state = ContainerStateStopped ∨ state = ContainerStateExited)) := by
  have heq : KillContainer rt r s
      = (if state = ContainerStateStopped ∨ state = ContainerStateExited then
          ([.Error ("Container " ++ r.name ++ " is not running") 409
              (.sentinel ("Cannot kill Container " ++ r.name ++ ", it is not running"))], s2)
        else afterKill rt r con (rt.Kill con (toUint sig) s2)) := by
    simp only [KillContainer, hquery, hsig, hlookup, hstate, StatusConflict]
  refine ⟨heq, ?_⟩
  rw [heq]
  by_cases hst : state = ContainerStateStopped ∨ state = ContainerStateExited
  · simp [hst, StatusConflict]
  · rw [if_neg hst]
    refine ⟨fun hex => ?_, fun h => absurd h hst⟩
    rcases hex with ⟨msg, err, hresp⟩
    rcases afterKill_responses rt r con _ _ hresp with ⟨m, e, h⟩ | h
    · simp [StatusConflict, StatusInternalServerError] at h
    · simp at h

/-- Witness of C18: a kill without signal parameter on a running container
sends the signal 9; the same request on an exited container is answered
409. -/
theorem C18_kill_conflict_witness :
    KillContainer (loggingCtrRuntime ["web"] ContainerStateRunning none)
        ⟨.ok none, true, "web", "/containers/web/kill"⟩ []
      = afterKill (loggingCtrRuntime ["web"] ContainerStateRunning none)
          ⟨.ok none, true, "web", "/containers/web/kill"⟩ "web"
          ((loggingCtrRuntime ["web"] ContainerStateRunning none).Kill "web" 9
            ["lookup web", "state web"]) :=
  (C18_kill_conflict (loggingCtrRuntime ["web"] ContainerStateRunning none)
    ⟨.ok none, true, "web", "/containers/web/kill"⟩ [] ["lookup web"] ["lookup web", "state web"]
    none 9 "web" ContainerStateRunning rfl rfl rfl rfl).1.trans rfl

/-- C19 fails on the code: after a successful kill of a running container,
`KillContainer` does not call `Wait` for a compat request and calls it for a
libpod request, the reverse of what its comment says. -/
theorem C19_wait_only_for_libpod :
    (KillContainer (loggingCtrRuntime ["web"] ContainerStateRunning none)
        ⟨.ok none, false, "web", "/containers/web/kill"⟩ []).2
      = ["lookup web", "state web", "kill web 9"]
    ∧ (KillContainer (loggingCtrRuntime ["web"] ContainerStateRunning none)
        ⟨.ok none, true, "web", "/libpod/containers/web/kill"⟩ []).2
      = ["lookup web", "state web", "kill web 9", "wait web"] := by
  constructor <;> rfl

/-- C20, as stated, fails on the 404 path: for a container that is not
found, the one response is the call of `ContainerNotFound`, and the runtime
has been called, with `LookupContainer`, whose failure is what leads to that
path. -/
theorem C20_counterexample_lookup_called :
    RemoveContainer (loggingCtrRuntime ["top"] ContainerStateRunning none)
        ⟨.ok ⟨false, false, false⟩, false, "ghost", "/containers/ghost"⟩ []
      = ([.ContainerNotFound "ghost" (.sentinel "no such container")], ["lookup ghost"]) := by
  decide

/-- C20 (amended): assume that every call of a helper of
`pkg/api/handlers/utils` writes one response, `Error` and `WriteResponse`
with the status they are given, `ContainerNotFound` with 404 and
`InternalServerError` with 500. Then for every request the handler
`RemoveContainer` calls exactly one helper and writes exactly one response:
`Error` with 400 when the parameters do not decode or when `link` is set on a
request that is not a libpod request, in both cases without any call of the
runtime; `ContainerNotFound`, 404, when `runtime.LookupContainer` fails,
without a call of `runtime.RemoveContainer`; otherwise
`runtime.RemoveContainer` is called once with the container found and the
values of `force` and `v` as decoded, and the response is
`InternalServerError`, 500, when it returns an error and `WriteResponse` with
204 when it does not. -/
theorem C20_remove_container {σ κ : Type} (rt : CtrRuntime σ κ) (r : HttpRequest RemoveQuery)
    (s : σ) (written : Response → List Nat)
    (hError : ∀ msg code err, written (.Error msg code err) = [code])
    (hWrite : ∀ code body, written (.WriteResponse code body) = [code])
    (hNotFound : ∀ name err, written (.ContainerNotFound name err) = [404])
    (hInternal : ∀ err, written (.InternalServerError err) = [500]) :
    (RemoveContainer rt r s).1.length = 1
    ∧ ((RemoveContainer rt r s).1.flatMap written).length = 1
    ∧ (∀ err, r.query = .error err →
        RemoveContainer rt r s
          = ([.Error "Bad Request" 400
              (.wrapped ("Failed to parse parameters for " ++ r.url) err)], s)
        ∧ (RemoveContainer rt r s).1.flatMap written = [400])
    ∧ (∀ query, r.query = .ok query →
        (query.Link = true ∧ r.isLibpod = false →
          RemoveContainer rt r s = ([.Error "Bad Request" 400 ErrLinkNotSupport], s)
          ∧ (RemoveContainer rt r s).1.flatMap written = [400])
        ∧ (¬ (query.Link = true ∧ r.isLibpod = false) →
          (∀ err s1, rt.LookupContainer r.name s = (.error err, s1) →
            RemoveContainer rt r s = ([.ContainerNotFound r.name err], s1)
            ∧ (RemoveContainer rt r s).1.flatMap written = [404])
          ∧ (∀ con s1, rt.LookupContainer r.name s = (.ok con, s1) →
            (RemoveContainer rt r s).2 = (rt.RemoveContainer con query.Force query.Vols s1).2
            ∧ (RemoveContainer rt r s).1
              = [match (rt.RemoveContainer con query.Force query.Vols s1).1 with
                 | some err => .InternalServerError err
                 | none => .WriteResponse 204 ""]
            ∧ (RemoveContainer rt r s).1.flatMap written
              = [if (rt.RemoveContainer con query.Force query.Vols s1).1.isSome then 500
                 else 204]))) := by
  have hdecode : ∀ err, r.query = .error err →
      RemoveContainer rt r s
        = ([.Error "Bad Request" 400
            (.wrapped ("Failed to parse parameters for " ++ r.url) err)], s) := by
    intro err hq
    simp [RemoveContainer, hq, StatusBadRequest]
  have hlinked : ∀ query, r.query = .ok query → query.Link = true ∧ r.isLibpod = false →
      RemoveContainer rt r s = ([.Error "Bad Request" 400 ErrLinkNotSupport], s) := by
    intro query hq hl
    simp [RemoveContainer, hq, hl.1, hl.2, StatusBadRequest]
  have hunlinked : ∀ query : RemoveQuery, ¬ (query.Link = true ∧ r.isLibpod = false) →
      (query.Link && !r.isLibpod) = false := by
    intro query hno
    cases h1 : query.Link <;> cases h2 : r.isLibpod <;> simp_all
  have hmissing : ∀ query, r.query = .ok query → ¬ (query.Link = true ∧ r.isLibpod = false) →
      ∀ err s1, rt.LookupContainer r.name s = (.error err, s1) →
        RemoveContainer rt r s = ([.ContainerNotFound r.name err], s1) := by
    intro query hq hno err s1 hl
    simp [RemoveContainer, hq, hunlinked query hno, hl]
  have hfound : ∀ query, r.query = .ok query → ¬ (query.Link = true ∧ r.isLibpod = false) →
      ∀ con s1, rt.LookupContainer r.name s = (.ok con, s1) →
        RemoveContainer rt r s
          = ([match (rt.RemoveContainer con query.Force query.Vols s1).1 with
              | some err => .InternalServerError err
              | none => .WriteResponse 204 ""],
             (rt.RemoveContainer con query.Force query.Vols s1).2) := by
    intro query hq hno con s1 hl
    rcases hr : rt.RemoveContainer con query.Force query.Vols s1 with ⟨e, s2⟩
    cases e <;> simp [RemoveContainer, hq, hunlinked query hno, hl, hr, StatusNoContent]
  have hone : (RemoveContainer rt r s).1.length = 1
      ∧ ((RemoveContainer rt r s).1.flatMap written).length = 1 := by
    cases hq : r.query with
    | error err => rw [hdecode err hq]; simp [hError]
    | ok query =>
      by_cases hl : query.Link = true ∧ r.isLibpod = false
      · rw [hlinked query hq hl]; simp [hError]
      · rcases hlook : rt.LookupContainer r.name s with ⟨found, s1⟩
        cases found with
        | error err => rw [hmissing query hq hl err s1 hlook]; simp [hNotFound]
        | ok con =>
          rw [hfound query hq hl con s1 hlook]
          cases (rt.RemoveContainer con query.Force query.Vols s1).1 <;>
            simp [hInternal, hWrite]
  refine ⟨hone.1, hone.2, fun err hq => ⟨hdecode err hq, ?_⟩, fun query hq => ⟨fun hl => ?_,
    fun hno => ⟨fun err s1 hlook => ?_, fun con s1 hlook => ?_⟩⟩⟩
  · rw [hdecode err hq]; simp [hError]
  · exact ⟨hlinked query hq hl, by rw [hlinked query hq hl]; simp [hError]⟩
  · exact ⟨hmissing query hq hno err s1 hlook,
      by rw [hmissing query hq hno err s1 hlook]; simp [hNotFound]⟩
  · rw [hfound query hq hno con s1 hlook]
    refine ⟨rfl, rfl, ?_⟩
    cases (rt.RemoveContainer con query.Force query.Vols s1).1 <;> simp [hInternal, hWrite]

/-- Witness of C20 (amended): removing a paused container without force,
which the runtime refuses, is answered 500. -/
theorem C20_remove_container_witness :
    (RemoveContainer (loggingCtrRuntime ["top"] ContainerStatePaused (some (.sentinel "paused")))
        ⟨.ok ⟨false, false, false⟩, true, "top", "/libpod/containers/top"⟩ []).1.flatMap
        testedStatuses
      = [500] :=
  ((((C20_remove_container
    (loggingCtrRuntime ["top"] ContainerStatePaused (some (.sentinel "paused")))
    ⟨.ok ⟨false, false, false⟩, true, "top", "/libpod/containers/top"⟩ [] testedStatuses
    (fun _ _ _ => rfl) (fun _ _ => rfl) (fun _ _ => rfl) (fun _ => rfl)).2.2.2
      ⟨false, false, false⟩ rfl).2 (by decide)).2 "top" ["lookup top"] rfl).2.2

/-! ## The output of `pod ps` -/

/-- C21, as stated, fails: the key "status", which the help of `--sort` does
not list, is accepted by `sortPodPsOutput`. -/
theorem C21_counterexample_status_key :
    sortPodPsOutput plainPsEnv "status" [] = .ok []
    ∧ "status" ∉ ["created", "id", "name", "number"] :=
  ⟨rfl, by decide⟩

/-- C21 (amended): `sortPodPsOutput` succeeds exactly for the five keys
created, id, name, number and status, with the slice sorted by the `Less` of
the key, and returns the "invalid option for --sort" error, without a result,
for every other string. -/
theorem C21_sort_keys (env : PsEnv) (sortBy : String) (psOutput : List podPsJSONParams) :
    (sortBy ∈ ["created", "id", "name", "number", "status"]
      ↔ ∃ sorted, sortPodPsOutput env sortBy psOutput = .ok sorted)
    ∧ (sortBy ∉ ["created", "id", "name", "number", "status"] →
      sortPodPsOutput env sortBy psOutput
        = .error (.sentinel "invalid option for --sort, options are: id, names, or number"))
    ∧ sortPodPsOutput env "created" psOutput = .ok (env.sortSort lessCreated psOutput)
    ∧ sortPodPsOutput env "id" psOutput = .ok (env.sortSort lessId psOutput)
    ∧ sortPodPsOutput env "name" psOutput = .ok (env.sortSort lessName psOutput)
    ∧ sortPodPsOutput env "number" psOutput = .ok (env.sortSort lessNumber psOutput)
    ∧ sortPodPsOutput env "status" psOutput = .ok (env.sortSort lessStatus psOutput) := by
  have hbad : sortBy ∉ ["created", "id", "name", "number", "status"] →
      sortPodPsOutput env sortBy psOutput
        = .error (.sentinel "invalid option for --sort, options are: id, names, or number") := by
    intro h
    simp only [List.mem_cons, List.mem_singleton, List.not_mem_nil, or_false, not_or] at h
    simp [sortPodPsOutput, h.1, h.2.1, h.2.2.1, h.2.2.2.1, h.2.2.2.2]
  refine ⟨⟨fun h => ?_, fun h => ?_⟩, hbad, rfl, rfl, rfl, rfl, rfl⟩
  · simp only [List.mem_cons, List.mem_singleton, List.not_mem_nil, or_false] at h
    rcases h with rfl | rfl | rfl | rfl | rfl
    · exact ⟨_, rfl⟩
    · exact ⟨_, rfl⟩
    · exact ⟨_, rfl⟩
    · exact ⟨_, rfl⟩
    · exact ⟨_, rfl⟩
  · by_contra hnot
    rcases h with ⟨sorted, hs⟩
    rw [hbad hnot] at hs
    cases hs

/-- The loop over the pods appends one element per pod. -/
theorem podJSONLoop_length (pods : List PsPod) :
    ∀ (acc out : List podPsJSONParams), podJSONLoop pods acc = .ok out →
      out.length = acc.length + pods.length := by
  induction pods with
  | nil => intro acc out h; simp [podJSONLoop] at h; simp [h]
  | cons pod pods ih =>
    intro acc out h
    simp only [podJSONLoop] at h
    cases hp : podJSONParams pod with
    | error err => simp [hp] at h
    | ok params =>
      simp only [hp] at h
      have := ih _ _ h
      simp at this ⊢
      omega

/-- When `sort.Sort` permutes the slice, `sortPodPsOutput` keeps its
length. -/
theorem sortPodPsOutput_length (env : PsEnv)
    (hsort : ∀ less l, (env.sortSort less l).Perm l) (sortBy : String)
    (psOutput sorted : List podPsJSONParams)
    (h : sortPodPsOutput env sortBy psOutput = .ok sorted) : sorted.length = psOutput.length := by
  unfold sortPodPsOutput at h
  split_ifs at h <;> cases h <;> exact (hsort _ _).length_eq

/-- When `sort.Sort` permutes the slice, `getAndSortPodJSONParams` returns
one element per pod. -/
theorem getAndSort_length (env : PsEnv) (hsort : ∀ less l, (env.sortSort less l).Perm l)
    (pods : List PsPod) (opts : podPsOptions) (ps : List podPsJSONParams)
    (h : getAndSortPodJSONParams env pods opts = .ok ps) : ps.length = pods.length := by
  unfold getAndSortPodJSONParams at h
  cases hl : podJSONLoop pods [] with
  | error err => simp [hl] at h
  | ok out =>
    simp only [hl] at h
    have h1 := podJSONLoop_length pods [] out hl
    have h2 := sortPodPsOutput_length env hsort _ _ _ h
    simp at h1
    omega

/-- C27: provided `sort.Sort` permutes the slice it is given,
`generatePodPsOutput` never indexes an empty slice. With no pod and a format
that is not JSON it returns nil at once. Whenever it reaches `psOutput[0]`
in the template branch, the pod list is not empty, `getPodTemplateOutput` has
returned exactly one row per element it was given, in the same order, and
these are as many as the pods, so the slice has a first element. -/
theorem C27_pod_ps_no_panic (env : PsEnv) (pods : List PsPod) (opts : podPsOptions)
    (hsort : ∀ less l, (env.sortSort less l).Perm l) :
    generatePodPsOutput env pods opts ≠ .panic
    ∧ (pods = [] → opts.Format ≠ JSONString →
        generatePodPsOutput env pods opts = .returned none)
    ∧ (∀ ps, opts.Format ≠ JSONString → pods ≠ [] →
        getAndSortPodJSONParams env pods opts = .ok ps →
        ps.length = pods.length
        ∧ getPodTemplateOutput env ps opts = .ok (ps.map (templateRow env opts))
        ∧ ∃ first rest, ps.map (templateRow env opts) = first :: rest
          ∧ generatePodPsOutput env pods opts
            = .out (.StdoutTemplateArray ((first :: rest).map PsGeneric.template) opts.Format
                (env.podHeaderMap first))) := by
  have hbranch : ∀ ps, opts.Format ≠ JSONString → pods ≠ [] →
      getAndSortPodJSONParams env pods opts = .ok ps →
      ps.length = pods.length
      ∧ getPodTemplateOutput env ps opts = .ok (ps.map (templateRow env opts))
      ∧ ∃ first rest, ps.map (templateRow env opts) = first :: rest
        ∧ generatePodPsOutput env pods opts
          = .out (.StdoutTemplateArray ((first :: rest).map PsGeneric.template) opts.Format
              (env.podHeaderMap first)) := by
    intro ps hfmt hpods hps
    have hlen := getAndSort_length env hsort pods opts ps hps
    have hpl : pods.length ≠ 0 := fun h => hpods (List.length_eq_zero.mp h)
    refine ⟨hlen, rfl, ?_⟩
    cases ps with
    | nil => simp at hlen; omega
    | cons p ps =>
      refine ⟨templateRow env opts p, ps.map (templateRow env opts), rfl, ?_⟩
      simp [generatePodPsOutput, hpl, hfmt, hps, getPodTemplateOutput, podPsToGeneric]
  refine ⟨?_, ?_, hbranch⟩
  · by_cases hfmt : opts.Format = JSONString
    · unfold generatePodPsOutput
      simp only [hfmt, ne_eq, not_true_eq_false, and_false, if_false, if_true]
      cases getAndSortPodJSONParams env pods opts <;> simp
    · by_cases hpods : pods = []
      · subst hpods
        simp [generatePodPsOutput, hfmt]
      · cases hps : getAndSortPodJSONParams env pods opts with
        | error err =>
          have hpl : pods.length ≠ 0 := fun h => hpods (List.length_eq_zero.mp h)
          simp [generatePodPsOutput, hpl, hps]
        | ok ps =>
          rcases (hbranch ps hfmt hpods hps).2.2 with ⟨first, rest, _, hout⟩
          rw [hout]
          simp
  · intro hpods hfmt
    subst hpods
    simp [generatePodPsOutput, hfmt]

/-- Witness of C27: one pod with one running container, shown with a
template. -/
theorem C27_pod_ps_no_panic_witness :
    generatePodPsOutput plainPsEnv
        [⟨"0123456789abcdef", "web", 5, "machine.slice", ["net"],
          .ok [⟨"c1", .ok (ContainerStateRunning, "nginx")⟩], .ok "Running", .ok "c0"⟩]
        ⟨false, "table", "name", false, false, false, false, false, false⟩
      ≠ .panic :=
  (C27_pod_ps_no_panic plainPsEnv
    [⟨"0123456789abcdef", "web", 5, "machine.slice", ["net"],
      .ok [⟨"c1", .ok (ContainerStateRunning, "nginx")⟩], .ok "Running", .ok "c0"⟩]
    ⟨false, "table", "name", false, false, false, false, false, false⟩
    (fun _ l => List.perm_insertionSort _ l)).1

/-! ## Seccomp paths -/

/-- C22 fails on the code: for the path `localhost/profiles/audit.json`
`verifySeccompPath` joins the profile root with `profiles` only, the piece
before the second `/`, not with `profiles/audit.json`; and the path
`localhost`, which is not of the localhost form, is not rejected: the index
`parts[1]` is out of range. -/
theorem C22_localhost_first_piece_only :
    verifySeccompPath plainSeccompEnv "localhost/profiles/audit.json" "/var/lib/kubelet/seccomp"
      = .done (.ok (plainSeccompEnv.filepathJoin "/var/lib/kubelet/seccomp" "profiles"))
    ∧ plainSeccompEnv.filepathJoin "/var/lib/kubelet/seccomp" "profiles"
      ≠ plainSeccompEnv.filepathJoin "/var/lib/kubelet/seccomp" "profiles/audit.json"
    ∧ verifySeccompPath plainSeccompEnv "localhost" "/var/lib/kubelet/seccomp" = .panic := by
  refine ⟨rfl, by decide, rfl⟩

/-- C23 fails on the code: for the nil annotations map
`initializeSeccompPaths` succeeds with an empty `podPath`, although the
default seccomp path is not empty, and `findForContainer` then returns the
empty path for every container. -/
theorem C23_nil_annotations_empty_pod_path :
    initializeSeccompPaths plainSeccompEnv none "/var/lib/kubelet/seccomp"
      = .done (.ok ⟨[], ""⟩)
    ∧ plainSeccompEnv.DefaultSeccompPath = .ok "/usr/share/containers/seccomp.json"
    ∧ kubeSeccompPaths.findForContainer ⟨[], ""⟩ "web" = "" := by
  refine ⟨rfl, rfl, rfl⟩

/-! ## `ListContainers` and `LogsFromContainer` -/

/-- C24 fails on the code: with `limit=-2` the low bound of the slice
expression is beyond the length, for every container list, and
`ListContainers` panics; the same holds for every limit below -1. -/
theorem C24_negative_limit_panics :
    ListContainers plainListRuntime
        ⟨.ok ⟨true, -2, false, true⟩, false, "", "/containers/json?all=true&limit=-2"⟩ ()
      = .panic
    ∧ limitContainers true (-2) ["db", "web", "cache"] = .panic
    ∧ (∀ (containers : List String) (k : Nat),
        limitContainers true (-2 - (k : Int)) containers = .panic) := by
  refine ⟨rfl, rfl, ?_⟩
  intro containers k
  have h1 : ((-2 - (k : Int)) != -1) = true := by
    simp only [bne_iff_ne, ne_eq]
    omega
  have h2 : (containers.length : Int) > -2 - (k : Int) := by omega
  have h3 : (containers.length : Int) - (-2 - (k : Int)) < 0
      ∨ (containers.length : Int) - (-2 - (k : Int)) > containers.length := by
    right; omega
  simp only [limitContainers, h1, Bool.and_self, if_true, h2, h3]

/-- C25 fails on the code: for a request with `since=100` and `until=200`,
the `Since` handed to `runtime.Log` is 200, the parsed `until`, and the
cut-off `until` stays the zero time; a line of time 150, which is not after
the `until` supplied, ends the pass and is not written. -/
theorem C25_until_overwrites_since :
    LogsFromContainer plainLogsEnv
        ⟨.ok ⟨false, true, true, some "100", some "200", false, none⟩, false, "web",
          "/containers/web/logs?stdout=1&stderr=1&since=100&until=200"⟩ ()
      = .streaming "web" ⟨true, false, 200, -1, false⟩ 0 0 ()
    ∧ plainLogsEnv.ParseInputTime "100" = .ok 100
    ∧ plainLogsEnv.ParseInputTime "200" = .ok 200
    ∧ logRange plainLogsEnv ⟨false, true, true, some "100", some "200", false, none⟩ 0
        [⟨"stdout", "hello", 150⟩] []
      = ([], []) := by
  refine ⟨rfl, rfl, rfl, rfl⟩

/-- C26 fails on the code: the tail `-2`, which `ParseInt` parses, is
accepted, the capacity `tail+1` asked of `make` is -1, and
`LogsFromContainer` panics. -/
theorem C26_negative_tail_panics :
    LogsFromContainer plainLogsEnv
        ⟨.ok ⟨false, true, true, none, none, false, some "-2"⟩, false, "web",
          "/containers/web/logs?stdout=1&stderr=1&tail=-2"⟩ ()
      = .panic
    ∧ plainLogsEnv.ParseInt "-2" = .ok (-2)
    ∧ wrapInt64 (-2 + 1) = -1 := by
  refine ⟨rfl, rfl, by decide⟩

/-! ## Volume filters -/

/-- The closure of `label` and `opt` accepts a map exactly when one of its
entries has the key and, unless the value asked for is empty, the value. -/
theorem matchesEntry_any (k w : String) (entries : StrMap) :
    matchesEntry k w entries = entries.any (fun e => e.1 == k && (w == "" || e.2 == w)) := by
  induction entries with
  | nil => rfl
  | cons e entries ih =>
    rcases e with ⟨a, b⟩
    have hcomm : ("" == w) = (w == "") := BEq.comm
    simp only [matchesEntry, List.any_cons, ih, hcomm]
    cases h : (a == k && (w == "" || b == w)) <;> simp

/-- For a key that the `switch` knows, the filter appended is the predicate
of the pair. -/
theorem volumeFilterFor_known (filter val : String) (h : filter ∈ volumeFilterKeys) :
    ∃ f, volumeFilterFor filter val = some f ∧ ∀ v, f v = pairAccepts filter val v := by
  simp only [volumeFilterKeys, List.mem_cons, List.mem_singleton, List.not_mem_nil,
    or_false] at h
  rcases h with rfl | rfl | rfl | rfl | rfl
  · refine ⟨_, rfl, fun v => ?_⟩
    have hp : pairAccepts "name" val v = (v.Name == val) := rfl
    rw [hp]
    exact BEq.comm
  · refine ⟨_, rfl, fun v => ?_⟩
    have hp : pairAccepts "driver" val v = (v.Driver == val) := rfl
    rw [hp]
  · refine ⟨_, rfl, fun v => ?_⟩
    have hp : pairAccepts "scope" val v = (v.Scope == val) := rfl
    rw [hp]
  · refine ⟨_, rfl, fun v => ?_⟩
    have hp : pairAccepts "label" val v
        = v.Labels.any (fun e => e.1 == (filterKeyVal val).1
            && ((filterKeyVal val).2 == "" || e.2 == (filterKeyVal val).2)) := rfl
    rw [hp, matchesEntry_any]
  · refine ⟨_, rfl, fun v => ?_⟩
    have hp : pairAccepts "opt" val v
        = v.Options.any (fun e => e.1 == (filterKeyVal val).1
            && ((filterKeyVal val).2 == "" || e.2 == (filterKeyVal val).2)) := rfl
    rw [hp, matchesEntry_any]

/-- For every other key the `switch` takes its `default` case. -/
theorem volumeFilterFor_unknown (filter val : String) (h : filter ∉ volumeFilterKeys) :
    volumeFilterFor filter val = none := by
  simp only [volumeFilterKeys, List.mem_cons, List.mem_singleton, List.not_mem_nil,
    or_false, not_or] at h
  simp [volumeFilterFor, h.1, h.2.1, h.2.2.1, h.2.2.2.1, h.2.2.2.2]

/-- The inner loop fails exactly on a value of a key that the `switch` does
not know, and otherwise appends the predicate of every value. -/
theorem volumeFilterValues_spec (filter : String) (vals : List String) :
    ∀ vf : List VolumeFilter,
      (filter ∈ volumeFilterKeys ∨ vals = [] →
        ∃ fs, volumeFilterValues filter vals vf = .ok (vf ++ fs)
          ∧ ∀ v, fs.map (fun f => f v) = vals.map (fun val => pairAccepts filter val v))
      ∧ (filter ∉ volumeFilterKeys → vals ≠ [] →
        ∃ err, volumeFilterValues filter vals vf = .error err) := by
  induction vals with
  | nil =>
    intro vf
    exact ⟨fun _ => ⟨[], by simp [volumeFilterValues], fun v => rfl⟩, fun _ h => absurd rfl h⟩
  | cons val vals ih =>
    intro vf
    constructor
    · intro h
      have hk : filter ∈ volumeFilterKeys := by
        rcases h with h | h
        · exact h
        · cases h
      rcases volumeFilterFor_known filter val hk with ⟨f, hf, hfv⟩
      rcases (ih (vf ++ [f])).1 (Or.inl hk) with ⟨fs, hfs, hmap⟩
      refine ⟨f :: fs, ?_, fun v => ?_⟩
      · simp [volumeFilterValues, hf, hfs]
      · simp [hfv v, hmap v]
    · intro hk _
      exact ⟨.sentinel ("\"" ++ filter ++ "\" is in an invalid volume filter"),
        by simp [volumeFilterValues, volumeFilterFor_unknown filter val hk]⟩

/-- The two loops fail exactly when some (key, value) pair has a key that
the `switch` does not know, and otherwise append the predicate of every
pair, in order. -/
theorem volumeFilterLoop_spec (filters : List (String × List String)) :
    ∀ vf : List VolumeFilter,
      ((∀ p ∈ filterPairs filters, p.1 ∈ volumeFilterKeys) →
        ∃ fs, volumeFilterLoop filters vf = .ok (vf ++ fs)
          ∧ ∀ v, fs.map (fun f => f v)
            = (filterPairs filters).map (fun p => pairAccepts p.1 p.2 v))
      ∧ ((∃ p ∈ filterPairs filters, p.1 ∉ volumeFilterKeys) →
        ∃ err, volumeFilterLoop filters vf = .error err) := by
  induction filters with
  | nil =>
    intro vf
    refine ⟨fun _ => ⟨[], by simp [volumeFilterLoop], fun v => rfl⟩, ?_⟩
    rintro ⟨p, hp, _⟩
    simp [filterPairs] at hp
  | cons kv filters ih =>
    intro vf
    rcases kv with ⟨filter, vals⟩
    have hpairs : filterPairs ((filter, vals) :: filters)
        = vals.map (fun val => (filter, val)) ++ filterPairs filters := by
      simp [filterPairs]
    constructor
    · intro hall
      have hhead : filter ∈ volumeFilterKeys ∨ vals = [] := by
        cases vals with
        | nil => exact Or.inr rfl
        | cons val vals =>
          left
          exact hall (filter, val) (by rw [hpairs]; simp)
      have htail : ∀ p ∈ filterPairs filters, p.1 ∈ volumeFilterKeys := by
        intro p hp
        exact hall p (by rw [hpairs]; exact List.mem_append_right _ hp)
      rcases (volumeFilterValues_spec filter vals vf).1 hhead with ⟨fs1, h1, hm1⟩
      rcases (ih (vf ++ fs1)).1 htail with ⟨fs2, h2, hm2⟩
      refine ⟨fs1 ++ fs2, ?_, fun v => ?_⟩
      · simp [volumeFilterLoop, h1, h2]
      · rw [hpairs]
        simp [hm1 v, hm2 v, Function.comp_def]
    · rintro ⟨p, hp, hbad⟩
      rw [hpairs] at hp
      by_cases hk : filter ∈ volumeFilterKeys
      · have hp2 : p ∈ filterPairs filters := by
          rcases List.mem_append.mp hp with h | h
          · simp only [List.mem_map] at h
            rcases h with ⟨val, _, rfl⟩
            exact absurd hk hbad
          · exact h
        rcases (volumeFilterValues_spec filter vals vf).1 (Or.inl hk) with ⟨fs1, h1, _⟩
        rcases (ih (vf ++ fs1)).2 ⟨p, hp2, hbad⟩ with ⟨err, herr⟩
        exact ⟨err, by simp [volumeFilterLoop, h1, herr]⟩
      · by_cases hv : vals = []
        · subst hv
          have hp2 : p ∈ filterPairs filters := by simpa using hp
          rcases (ih vf).2 ⟨p, hp2, hbad⟩ with ⟨err, herr⟩
          exact ⟨err, by simp [volumeFilterLoop, volumeFilterValues, herr]⟩
        · rcases (volumeFilterValues_spec filter vals vf).2 hk hv with ⟨err, herr⟩
          exact ⟨err, by simp [volumeFilterLoop, herr]⟩

/-- The text `k=w` with no `=` in `k` is split into `k` and `w`. -/
theorem filterKeyVal_pair (k w : String) (hk : ∀ c ∈ k.data, c ≠ '=') :
    filterKeyVal (k ++ "=" ++ w) = (k, w) := by
  have hdata : (k ++ "=" ++ w).data = k.data ++ '=' :: w.data := by
    simp [String.data_append]
  have hdrop : ∀ (l : List Char), (∀ c ∈ l, c ≠ '=') →
      (l ++ '=' :: w.data).dropWhile (fun c => c != '=') = '=' :: w.data := by
    intro l hl
    induction l with
    | nil => simp
    | cons c l ih =>
      have hc : (c != '=') = true := by simpa using hl c (List.mem_cons_self _ _)
      simp [List.dropWhile, hc, ih (fun x hx => hl x (List.mem_cons_of_mem _ hx))]
  have htake : ∀ (l : List Char), (∀ c ∈ l, c ≠ '=') →
      (l ++ '=' :: w.data).takeWhile (fun c => c != '=') = l := by
    intro l hl
    induction l with
    | nil => simp
    | cons c l ih =>
      have hc : (c != '=') = true := by simpa using hl c (List.mem_cons_self _ _)
      simp [List.takeWhile, hc, ih (fun x hx => hl x (List.mem_cons_of_mem _ hx))]
  simp [filterKeyVal, stringsSplitN2, hdata, hdrop k.data hk, htake k.data hk]

/-- A text without `=` is a key with the empty value. -/
theorem filterKeyVal_key (k : String) (hk : ∀ c ∈ k.data, c ≠ '=') :
    filterKeyVal k = (k, "") := by
  have hdrop : ∀ (l : List Char), (∀ c ∈ l, c ≠ '=') →
      l.dropWhile (fun c => c != '=') = [] := by
    intro l hl
    induction l with
    | nil => rfl
    | cons c l ih =>
      have hc : (c != '=') = true := by simpa using hl c (List.mem_cons_self _ _)
      simp [List.dropWhile, hc, ih (fun x hx => hl x (List.mem_cons_of_mem _ hx))]
  simp [filterKeyVal, stringsSplitN2, hdrop k.data hk]

/-- C28, as stated, fails twice: a key outside the five known, with an empty
list of values, gives no error; and the label filter `env=`, whose value
behind the `=` is empty, accepts a volume whose label `env` is `prod`, not
only one whose label `env` is empty. -/
theorem C28_counterexample_empty_values :
    (∃ fs, GenerateVolumeFilters [("bogus", [])] = .ok fs)
    ∧ "bogus" ∉ volumeFilterKeys
    ∧ (GenerateVolumeFilters [("label", ["env="])]).map
        (fun fs => fs.map (fun f => f ⟨"data", "local", "local", [("env", "prod")], []⟩))
      = .ok [true] :=
  ⟨⟨[], rfl⟩, by decide, rfl⟩

/-- C28 (amended): `GenerateVolumeFilters` returns an error if and only if
some key outside name, driver, scope, label and opt has at least one value
(a key without values is not looked at); otherwise it returns exactly one
predicate per (key, value) pair, in order. A name, driver or scope predicate
accepts a volume whose name, driver or scope is the value. A label (resp.
opt) value `k=w` with `w` not empty accepts a volume iff it has the label
(option) `k` with the value `w`; a value `k=` or `k` accepts a volume iff it
has the label (option) `k`. -/
theorem C28_volume_filters (filters : List (String × List String)) :
    ((∃ err, GenerateVolumeFilters filters = .error err)
      ↔ ∃ kv ∈ filters, kv.2 ≠ [] ∧ kv.1 ∉ volumeFilterKeys)
    ∧ ((∀ kv ∈ filters, kv.2 ≠ [] → kv.1 ∈ volumeFilterKeys) →
      ∃ fs, GenerateVolumeFilters filters = .ok fs
        ∧ fs.length = (filterPairs filters).length
        ∧ ∀ v, fs.map (fun f => f v)
          = (filterPairs filters).map (fun p => pairAccepts p.1 p.2 v))
    ∧ (∀ (k w : String) (v : Volume), (∀ c ∈ k.data, c ≠ '=') →
        pairAccepts "label" (k ++ "=" ++ w) v
          = v.Labels.any (fun e => e.1 == k && (w == "" || e.2 == w))
        ∧ pairAccepts "opt" (k ++ "=" ++ w) v
          = v.Options.any (fun e => e.1 == k && (w == "" || e.2 == w))
        ∧ pairAccepts "label" k v = v.Labels.any (fun e => e.1 == k)
        ∧ pairAccepts "opt" k v = v.Options.any (fun e => e.1 == k)) := by
  have hpairs_good : (∀ kv ∈ filters, kv.2 ≠ [] → kv.1 ∈ volumeFilterKeys) →
      ∀ p ∈ filterPairs filters, p.1 ∈ volumeFilterKeys := by
    intro h p hp
    simp only [filterPairs, List.mem_flatMap, List.mem_map] at hp
    rcases hp with ⟨kv, hkv, val, hval, rfl⟩
    exact h kv hkv (List.ne_nil_of_mem hval)
  have hpairs_bad : (∃ kv ∈ filters, kv.2 ≠ [] ∧ kv.1 ∉ volumeFilterKeys) →
      ∃ p ∈ filterPairs filters, p.1 ∉ volumeFilterKeys := by
    rintro ⟨kv, hkv, hne, hbad⟩
    rcases List.exists_mem_of_ne_nil _ hne with ⟨val, hval⟩
    refine ⟨(kv.1, val), ?_, hbad⟩
    simp only [filterPairs, List.mem_flatMap, List.mem_map]
    exact ⟨kv, hkv, val, hval, rfl⟩
  have hok : (∀ kv ∈ filters, kv.2 ≠ [] → kv.1 ∈ volumeFilterKeys) →
      ∃ fs, GenerateVolumeFilters filters = .ok fs
        ∧ fs.length = (filterPairs filters).length
        ∧ ∀ v, fs.map (fun f => f v)
          = (filterPairs filters).map (fun p => pairAccepts p.1 p.2 v) := by
    intro h
    rcases (volumeFilterLoop_spec filters []).1 (hpairs_good h) with ⟨fs, hfs, hmap⟩
    refine ⟨fs, by simpa [GenerateVolumeFilters] using hfs, ?_, hmap⟩
    have := congrArg List.length (hmap ⟨"", "", "", [], []⟩)
    simpa using this
  refine ⟨⟨fun herr => ?_, fun hbad => ?_⟩, hok, fun k w v hk => ?_⟩
  · by_contra hno
    have hall : ∀ kv ∈ filters, kv.2 ≠ [] → kv.1 ∈ volumeFilterKeys := by
      intro kv hkv hne
      by_contra hbad
      exact hno ⟨kv, hkv, hne, hbad⟩
    rcases hok hall with ⟨fs, hfs, _⟩
    rcases herr with ⟨err, herr⟩
    rw [hfs] at herr
    cases herr
  · rcases (volumeFilterLoop_spec filters []).2 (hpairs_bad hbad) with ⟨err, herr⟩
    exact ⟨err, herr⟩
  · have h1 : ∀ val, pairAccepts "label" val v
        = v.Labels.any (fun e => e.1 == (filterKeyVal val).1
            && ((filterKeyVal val).2 == "" || e.2 == (filterKeyVal val).2)) := fun _ => rfl
    have h2 : ∀ val, pairAccepts "opt" val v
        = v.Options.any (fun e => e.1 == (filterKeyVal val).1
            && ((filterKeyVal val).2 == "" || e.2 == (filterKeyVal val).2)) := fun _ => rfl
    refine ⟨?_, ?_, ?_, ?_⟩
    · rw [h1, filterKeyVal_pair k w hk]
    · rw [h2, filterKeyVal_pair k w hk]
    · rw [h1, filterKeyVal_key k hk]; simp
    · rw [h2, filterKeyVal_key k hk]; simp

/-- Witness of C28 (amended): a label filter and two names give three
predicates. -/
theorem C28_volume_filters_witness :
    ∃ fs, GenerateVolumeFilters [("label", ["env=prod"]), ("name", ["data", "logs"])] = .ok fs
      ∧ fs.length = 3
      ∧ fs.map (fun f => f ⟨"data", "local", "local", [("env", "prod")], []⟩)
        = [true, true, false] := by
  rcases (C28_volume_filters [("label", ["env=prod"]), ("name", ["data", "logs"])]).2.1
    (by decide) with ⟨fs, hfs, hlen, hmap⟩
  refine ⟨fs, hfs, hlen.trans (by decide), (hmap _).trans (by decide)⟩

end Libpod
